import Mathlib

/-!
Verification development for the WebRTC SFU signaling control plane.

The definitions below are a shallow embedding of the modular server
implementation: `src/signaling/context.js`, `src/signaling/router.js`,
`src/signaling/events.js`, the connection wiring in the unnamed signaling
entry file (`src/unnamed/part_001`), and the media-engine adapter
`src/sfu/context.js` / `src/sfu/operations.js` (facade `src/unnamed/part_000`).

JavaScript `Map` and `Set` preserve insertion order: `set` of an existing key
updates it in place, a new key is appended; `delete` removes the entry.  They
are embedded as association lists / lists with exactly those semantics
(`mapSet`, `mapGet`, `mapDel`, `setAdd`, `setDel`).

Asynchronous media-engine calls (`sfu.createProducer`, …) are abstracted as
`Except Unit String` oracles passed to the handler: `.ok id` is the engine
returning a fresh resource id, `.error ()` is the engine call throwing.
`Date.now()` is a `now : Nat` parameter.
-/

/-- Room role of a client, `client.role` / `room.memberRoles` values
("publisher" | "observer" | "moderator" in the source). -/
inductive Role where
  | publisher
  | observer
  | moderator
deriving DecidableEq, BEq

/-- Authenticated principal attached to a connection (`validateToken` result);
`role` is "admin" or "user". -/
structure User where
  id : String
  role : String
deriving DecidableEq, BEq

/-- JS truthiness of an optional string field of a message: `undefined`
and `""` are falsy. -/
def jsTruthy : Option String → Bool
  | none => false
  | some s => s ≠ ""

/-- JS `Map.prototype.set`: update the first entry with this key in place,
otherwise append at the end (insertion order preserved). -/
def mapSet {α : Type} : List (String × α) → String → α → List (String × α)
  | [], k, v => [(k, v)]
  | (k', v') :: rest, k, v =>
    if k' = k then (k, v) :: rest else (k', v') :: mapSet rest k v

/-- JS `Map.prototype.get` (first entry wins). -/
def mapGet {α : Type} : List (String × α) → String → Option α
  | [], _ => none
  | (k', v) :: rest, k => if k' = k then some v else mapGet rest k

/-- JS `Map.prototype.delete`. -/
def mapDel {α : Type} (m : List (String × α)) (k : String) : List (String × α) :=
  m.filter (fun p => p.1 ≠ k)

/-- JS `Set.prototype.add`. -/
def setAdd (s : List String) (x : String) : List String :=
  if x ∈ s then s else s ++ [x]

/-- JS `Set.prototype.delete`. -/
def setDel (s : List String) (x : String) : List String :=
  s.filter (fun y => y ≠ x)

/-- Per-room options captured from the Config Source at room creation
(`getRoomDefaults` in `src/config.js`): `maxVideoProducers` (0 = unlimited),
`allowObservers`, `maxObservers` (0 = unlimited). -/
structure RoomOptions where
  maxVideoProducers : Nat
  allowObservers : Bool
  maxObservers : Nat
deriving DecidableEq, BEq

/-- Entry of `room.producers`: `{clientId, kind, createdAt}`
(`handleProduce` in `src/signaling/router.js`). -/
structure ProducerInfo where
  clientId : String
  kind : String
  createdAt : Nat
deriving DecidableEq, BEq

/-- Room state kept by the room registry (`ensureRoom` in
`src/signaling/context.js`). -/
structure Room where
  name : String
  members : List String
  memberRoles : List (String × Role)
  producers : List (String × ProducerInfo)
  observers : List String
  options : RoomOptions
  ownerId : Option String
  moderators : List String
deriving DecidableEq, BEq

/-- `client.transportInfo` entry: `{room, direction}`. -/
structure TransportInfo where
  room : String
  direction : String
deriving DecidableEq, BEq

/-- Per-connection session state (`addClient` in `src/signaling/context.js`).
`wsOpen` models `ws.readyState === WS_STATE_OPEN`. -/
structure Client where
  id : String
  wsOpen : Bool
  user : Option User
  role : Role
  transports : List String
  transportInfo : List (String × TransportInfo)
  producers : List String
  consumers : List String
  rooms : List String
deriving DecidableEq, BEq

/-- The signaling context's two registries (`clients`, `rooms` Maps in
`createSignalingContext`) plus the Config-Source room defaults that
`ensureRoom` reads through `getRoomDefaults()`. -/
structure SigState where
  clients : List (String × Client)
  rooms : List (String × Room)
  defaults : RoomOptions
deriving DecidableEq, BEq

/-- Record in the media-engine adapter's `state.transports` / `state.producers`
/ `state.consumers` tables (`src/sfu/context.js`): normalized metadata
`{roomName, clientId}` around the engine handle (the handle itself is
engine-owned and not modelled). -/
structure SfuRecord where
  roomName : String
  clientId : String
deriving DecidableEq, BEq

/-- The media-engine adapter's three resource tables
(`createSfuContext` state in `src/sfu/context.js`). -/
structure SfuState where
  transports : List (String × SfuRecord)
  producers : List (String × SfuRecord)
  consumers : List (String × SfuRecord)
deriving DecidableEq, BEq

/-- Combined state of the signaling control plane and the adapter tables. -/
structure World where
  sig : SigState
  sfu : SfuState
deriving DecidableEq, BEq

/-- Outbound protocol messages relevant to the claims (payload fields that the
claims mention are kept; engine-supplied blobs are elided). -/
inductive Msg where
  | error (message : String)
  | joined (room id : String) (role : Role)
  | memberJoined (room id : String) (role : Role)
  | memberLeft (room id : String)
  | leftRoom (room id : String)
  | produced (producerId kind : String)
  | newProducer (room producerId clientId : String) (producerUser : Option String) (kind : String)
  | producersList (room : String) (producers : List (String × String × String))
  | producerClosedReply (producerId : String)
  | producerClosedRoom (room producerId clientId : String)
  | transportCreated (transportId : String)
  | consumed (consumerId producerId : String)
  | leave (id : String)
deriving DecidableEq, BEq

/-- Observable actions of a handler, in program order: `reply t m` is
`send(ws, m)` on the handling connection's own socket (`t` is that client's
id), `sent t m` is a successful `sendToClient(t, m)` (or a raw `ws.send` to
`t`'s socket), and `engineCreateProducer` marks the `sfu.createProducer`
engine-adapter call inside `handleProduce`. -/
inductive Event where
  | reply (target : String) (msg : Msg)
  | sent (target : String) (msg : Msg)
  | engineCreateProducer (transportId roomName clientId kind : String)
deriving DecidableEq, BEq

/-- `ensureRoom(name)` (`src/signaling/context.js` 13-27): idempotent; creates
a fresh room with Config-sourced defaults when the name is unknown.  Returns
the (possibly extended) state together with the room the name maps to. -/
def ensureRoom (st : SigState) (name : String) : SigState × Room :=
  match mapGet st.rooms name with
  | some r => (st, r)
  | none =>
    let r : Room :=
      { name := name, members := [], memberRoles := [], producers := [],
        observers := [], options := st.defaults, ownerId := none,
        moderators := [] }
    ({ st with rooms := st.rooms ++ [(name, r)] }, r)

/-- `addClient(clientId, ws, user)` (`src/signaling/context.js` 29-43). -/
def addClient (st : SigState) (clientId : String) (wsOpen : Bool)
    (user : Option User) : SigState :=
  let c : Client :=
    { id := clientId, wsOpen := wsOpen, user := user, role := .publisher,
      transports := [], transportInfo := [], producers := [], consumers := [],
      rooms := [] }
  { st with clients := mapSet st.clients clientId c }

/-- `sendToClient(clientId, payload)` (`src/signaling/context.js` 53-65):
emits the message only when the client exists and its socket is open;
otherwise it returns `false` and nothing is sent. -/
def sendToClient (st : SigState) (target : String) (m : Msg) : List Event :=
  match mapGet st.clients target with
  | some c => if c.wsOpen then [.sent target m] else []
  | none => []

/-- `broadcastToRoom(roomName, payload, {exclude})`
(`src/signaling/context.js` 67-74). -/
def broadcastToRoom (st : SigState) (roomName : String) (m : Msg)
    (exclude : Option String) : List Event :=
  match mapGet st.rooms roomName with
  | none => []
  | some room =>
    (room.members.filter (fun memberId => !(exclude = some memberId))).flatMap
      (fun memberId => sendToClient st memberId m)

/-- `roomProducersPayload(room)` (`src/signaling/context.js` 76-83):
`[{producerId, kind, clientId}]`. -/
def roomProducersPayload (room : Room) : List (String × String × String) :=
  room.producers.map (fun p => (p.1, p.2.kind, p.2.clientId))

/-- `closeClientProducers(roomName, clientId)` (`src/signaling/context.js`
85-104): collects the room's producer entries owned by the client, calls the
adapter's `closeProducer` for each inside try/catch (`engineThrows` says which
calls throw; a thrown error is only logged), then deletes each entry from
`room.producers` and from the client's `producers` set regardless. -/
def closeClientProducers (st : SigState) (roomName clientId : String)
    (engineThrows : String → Bool) : SigState :=
  match mapGet st.rooms roomName with
  | none => st
  | some room =>
    let toClose := (room.producers.filter
      (fun p => p.2.clientId = clientId)).map (fun p => p.1)
    let room' := { room with
      producers := room.producers.filter (fun p => !(p.2.clientId = clientId)) }
    let st1 := { st with rooms := mapSet st.rooms roomName room' }
    -- `engineThrows` influences nothing but a log line in the source
    let _ := toClose.map engineThrows
    match mapGet st1.clients clientId with
    | none => st1
    | some c =>
      let c' := { c with producers := c.producers.filter (fun pid => !(pid ∈ toClose)) }
      { st1 with clients := mapSet st1.clients clientId c' }

/-- Room-level part of `removeMemberFromRoom` (`src/signaling/context.js`
106-122): delete the client from `members`, `memberRoles`, `observers`; if it
was the owner, rescan the remaining `memberRoles` in insertion order for the
first publisher/moderator (null if none); finally delete from `moderators`. -/
def removeMemberRoom (room : Room) (clientId : String) : Room :=
  { room with
    members := setDel room.members clientId,
    memberRoles := mapDel room.memberRoles clientId,
    observers := setDel room.observers clientId,
    ownerId :=
      if room.ownerId = some clientId then
        ((mapDel room.memberRoles clientId).find?
          (fun p => p.2 == Role.publisher || p.2 == Role.moderator)).map
          (fun p => p.1)
      else room.ownerId,
    moderators := setDel room.moderators clientId }

/-- `removeMemberFromRoom(roomName, clientId)` at registry level. -/
def removeMemberFromRoom (st : SigState) (roomName clientId : String) : SigState :=
  match mapGet st.rooms roomName with
  | none => st
  | some room =>
    { st with rooms := mapSet st.rooms roomName (removeMemberRoom room clientId) }

/-- `deleteRoomIfEmpty(roomName)` (`src/signaling/context.js` 124-129). -/
def deleteRoomIfEmpty (st : SigState) (roomName : String) : SigState :=
  match mapGet st.rooms roomName with
  | some room => if room.members = [] then { st with rooms := mapDel st.rooms roomName } else st
  | none => st

/-- Adapter `closeTransport` (`src/sfu/operations.js` 79-84): closing the
engine transport fires its `close` event, whose `cleanup` handler calls
`unregisterTransport`, removing the record (`src/sfu/operations.js` 41-57,
`src/sfu/context.js` 103-110).  Engine events are modelled as running
synchronously with the close. -/
def sfuCloseTransport (s : SfuState) (transportId : String) : SfuState :=
  { s with transports := mapDel s.transports transportId }

/-- Adapter `closeProducer` (`src/sfu/operations.js` 305-310): calls
`meta.producer.close()` when the record exists.  The `transportclose`/`close`
handlers registered in `createProducer` (`src/sfu/operations.js` 232-233) are
`() => cleanup(...)` where no `cleanup` is defined in that function's scope,
so the handler throws a ReferenceError before any `unregisterProducer` runs:
the producer record is never removed from the adapter table, and no
`producer-closed` event is ever emitted by this adapter. -/
def sfuCloseProducer (s : SfuState) (_producerId : String) : SfuState :=
  s

/-- Adapter `closeConsumer` (`src/sfu/operations.js` 312-317): the consumer's
`close` event runs its (properly defined) `cleanup`, which calls
`unregisterConsumer` (`src/sfu/operations.js` 281-296). -/
def sfuCloseConsumer (s : SfuState) (consumerId : String) : SfuState :=
  { s with consumers := mapDel s.consumers consumerId }

/-- Adapter `closeClient` → `closeClientResources`
(`src/sfu/operations.js` 301-303, `src/sfu/context.js` 185-198): closes every
handle whose record matches the client.  Transport and consumer records are
unregistered through their close-event cleanups; producer records stay because
`createProducer`'s close handler references an undefined `cleanup` (see
`sfuCloseProducer`). -/
def sfuCloseClient (s : SfuState) (clientId : String) : SfuState :=
  { s with
    transports := s.transports.filter (fun p => !(p.2.clientId = clientId)),
    consumers := s.consumers.filter (fun p => !(p.2.clientId = clientId)) }

/-- Fields of a `join` message used by `handleJoin`. -/
structure JoinMsg where
  room : Option String
  role : Option String
deriving DecidableEq, BEq

/-- Fields of an `sfu.produce` message used by `handleProduce`
(`rtpParameters` only matters for presence). -/
structure ProduceMsg where
  transportId : Option String
  kind : Option String
  hasRtpParameters : Bool
  room : Option String
deriving DecidableEq, BEq

/-- Fields of a `leaveRoom` message. -/
structure LeaveRoomMsg where
  room : Option String
deriving DecidableEq, BEq

/-- Fields of an `sfu.closeProducer` message. -/
structure CloseProducerMsg where
  producerId : Option String
deriving DecidableEq, BEq

/-- Fields of an `sfu.createTransport` message. -/
structure CreateTransportMsg where
  room : Option String
  direction : Option String
deriving DecidableEq, BEq

/-- Fields of an `sfu.consume` message. -/
structure ConsumeMsg where
  transportId : Option String
  producerId : Option String
  hasRtpCapabilities : Bool
  room : Option String
deriving DecidableEq, BEq

/-- The moderator admission check of `handleJoin`
(`src/signaling/router.js` 331: `client.user && client.user.role === "admin"`). -/
def isAdminUser (client : Client) : Bool :=
  match client.user with
  | some u => u.role = "admin"
  | none => false

/-- `handleJoin` (`src/signaling/router.js` 315-385).  Checks in source order:
room field, client existence, the moderator admin gate (before `ensureRoom`),
then `ensureRoom`, then the observer gates (after room creation), then commits
membership, roles, owner, moderators, replies `joined`, broadcasts
`member-joined` to the other members, and sends the producers list to an
observer joiner. -/
def handleJoin (w : World) (clientId : String) (msg : JoinMsg) :
    World × List Event :=
  if !jsTruthy msg.room then
    (w, [.reply clientId (.error "room required for join")])
  else
    match mapGet w.sig.clients clientId with
    | none => (w, [.reply clientId (.error "client not found")])
    | some client =>
      let desiredRole : Role :=
        if msg.role = some "observer" then .observer
        else if msg.role = some "moderator" then .moderator
        else .publisher
      if desiredRole = .moderator && !isAdminUser client then
        (w, [.reply clientId (.error "only admin users can join as moderator")])
      else
        let roomName := msg.room.getD ""
        let (st1, roomObj) := ensureRoom w.sig roomName
        if desiredRole = .observer && !roomObj.options.allowObservers then
          ({ w with sig := st1 },
           [.reply clientId (.error "observers disabled for this room")])
        else if desiredRole = .observer && roomObj.options.maxObservers > 0 &&
            roomObj.observers.length ≥ roomObj.options.maxObservers then
          ({ w with sig := st1 },
           [.reply clientId (.error "observer limit reached")])
        else
          let roomObj :=
            if desiredRole = .observer then
              { roomObj with observers := setAdd roomObj.observers clientId }
            else roomObj
          let client' := { client with
            role := desiredRole, rooms := setAdd client.rooms roomName }
          let roomObj := { roomObj with
            members := setAdd roomObj.members clientId,
            memberRoles := mapSet roomObj.memberRoles clientId desiredRole }
          let roomObj :=
            if roomObj.ownerId = none && !(desiredRole = .observer) then
              { roomObj with ownerId := some clientId }
            else roomObj
          let roomObj :=
            if desiredRole = .moderator then
              { roomObj with moderators := setAdd roomObj.moderators clientId }
            else roomObj
          let st2 : SigState := { st1 with
            clients := mapSet st1.clients clientId client',
            rooms := mapSet st1.rooms roomName roomObj }
          let evs :=
            [Event.reply clientId (.joined roomName clientId desiredRole)]
            ++ broadcastToRoom st2 roomName
                (.memberJoined roomName clientId desiredRole) (some clientId)
            ++ (if desiredRole = .observer then
                  [Event.reply clientId
                    (.producersList roomName (roomProducersPayload roomObj))]
                else [])
          ({ w with sig := st2 }, evs)

/-- `handleProduce` (`src/signaling/router.js` 115-177).  Checks in source
order: sfu enabled, required fields, room field, client existence, the
observer gate, transport ownership; then `ensureRoom`, the video-producer
limit, the engine-adapter call (`engine` oracle; on success the adapter
registers the producer record, `src/sfu/operations.js` 104-109), control-plane
registration, the `sfu.produced` reply, and the `sfu.newProducer` broadcast
computed after the producer entry was inserted. -/
def handleProduce (sfuEnabled : Bool) (w : World) (clientId : String)
    (msg : ProduceMsg) (engine : Except Unit String) (now : Nat) :
    World × List Event :=
  if !sfuEnabled then
    (w, [.reply clientId (.error "sfu not enabled on server")])
  else if !(jsTruthy msg.transportId && jsTruthy msg.kind && msg.hasRtpParameters) then
    (w, [.reply clientId (.error "transportId, kind and rtpParameters required")])
  else if !jsTruthy msg.room then
    (w, [.reply clientId (.error "room required when producing")])
  else
    match mapGet w.sig.clients clientId with
    | none => (w, [.reply clientId (.error "client not found")])
    | some client =>
      if client.role = .observer then
        (w, [.reply clientId (.error "observers cannot produce")])
      else if !(msg.transportId.getD "" ∈ client.transports) then
        (w, [.reply clientId (.error "transport not found")])
      else
        let produceRoom := msg.room.getD ""
        let transportId := msg.transportId.getD ""
        let kind := msg.kind.getD ""
        let (st1, roomObj) := ensureRoom w.sig produceRoom
        let maxVideo := roomObj.options.maxVideoProducers
        let videoCount :=
          (roomObj.producers.filter (fun p => p.2.kind = "video")).length
        if kind = "video" && maxVideo > 0 && videoCount ≥ maxVideo then
          ({ w with sig := st1 },
           [.reply clientId (.error
             ("room already has " ++ toString maxVideo ++ " video producers"))])
        else
          match engine with
          | .error _ =>
            ({ w with sig := st1 },
             [.engineCreateProducer transportId produceRoom clientId kind,
              .reply clientId (.error "sfu.produce failed")])
          | .ok producerId =>
            let client' := { client with
              producers := setAdd client.producers producerId }
            let roomObj' := { roomObj with
              producers := mapSet roomObj.producers producerId
                { clientId := clientId, kind := kind, createdAt := now } }
            let st2 : SigState := { st1 with
              clients := mapSet st1.clients clientId client',
              rooms := mapSet st1.rooms produceRoom roomObj' }
            let sfu' := { w.sfu with
              producers := mapSet w.sfu.producers producerId
                { roomName := produceRoom, clientId := clientId } }
            let evs :=
              [Event.engineCreateProducer transportId produceRoom clientId kind,
               Event.reply clientId (.produced producerId kind)]
              ++ broadcastToRoom st2 produceRoom
                  (.newProducer produceRoom producerId clientId
                    (client.user.map (fun u => u.id)) kind)
                  (some clientId)
            (⟨st2, sfu'⟩, evs)

/-- `handleLeaveRoom` (`src/signaling/router.js` 387-399): requires the room
to exist, closes the client's producers in it, removes membership, deletes the
room from the client's set, replies `left`, broadcasts `member-left` (no
exclusion — the leaver is already out of `members`), then deletes the room if
empty. -/
def handleLeaveRoom (w : World) (clientId : String) (msg : LeaveRoomMsg)
    (engineThrows : String → Bool) : World × List Event :=
  if !jsTruthy msg.room then
    (w, [.reply clientId (.error "room required for leaveRoom")])
  else
    let roomName := msg.room.getD ""
    match mapGet w.sig.rooms roomName with
    | none => (w, [.reply clientId (.error ("room not found: " ++ roomName))])
    | some _ =>
      let st1 := closeClientProducers w.sig roomName clientId engineThrows
      let st2 := removeMemberFromRoom st1 roomName clientId
      let st3 :=
        match mapGet st2.clients clientId with
        | some c =>
          let c' := { c with rooms := setDel c.rooms roomName }
          { st2 with clients := mapSet st2.clients clientId c' }
        | none => st2
      let evs :=
        [Event.reply clientId (.leftRoom roomName clientId)]
        ++ broadcastToRoom st3 roomName (.memberLeft roomName clientId) none
      let st4 := deleteRoomIfEmpty st3 roomName
      ({ w with sig := st4 }, evs)

/-- `handleCloseProducer` (`src/signaling/router.js` 230-246): rejects when
the client is missing or owns no producer; then requires `producerId`; then
calls the adapter's `closeProducer` (which never throws: it returns `false`
for an unknown id, and closing an existing handle does not remove the record,
see `sfuCloseProducer`), deletes the id from the client's set and replies
`sfu.producerClosed` — for any `producerId` whatsoever. -/
def handleCloseProducer (w : World) (clientId : String)
    (msg : CloseProducerMsg) : World × List Event :=
  let clientOpt := mapGet w.sig.clients clientId
  match clientOpt with
  | none => (w, [.reply clientId (.error "no producers for client")])
  | some client =>
    if client.producers = [] then
      (w, [.reply clientId (.error "no producers for client")])
    else if !jsTruthy msg.producerId then
      (w, [.reply clientId (.error "producerId required")])
    else
      let pid := msg.producerId.getD ""
      let sfu' := sfuCloseProducer w.sfu pid
      let client' := { client with producers := setDel client.producers pid }
      (⟨{ w.sig with clients := mapSet w.sig.clients clientId client' }, sfu'⟩,
       [.reply clientId (.producerClosedReply pid)])

/-- `handleCreateTransport` (`src/signaling/router.js` 28-69).  The adapter
call `sfu.createWebRtcTransport` is the `engine` oracle; on success the
adapter has registered a transport record `{roomName, clientId, direction}`
(`src/sfu/operations.js` 39) and the session stores the id in
`client.transports` / `client.transportInfo`. -/
def handleCreateTransport (sfuEnabled : Bool) (w : World) (clientId : String)
    (msg : CreateTransportMsg) (engine : Except Unit String) :
    World × List Event :=
  if !sfuEnabled then
    (w, [.reply clientId (.error "sfu not enabled on server")])
  else if !jsTruthy msg.room then
    (w, [.reply clientId (.error "room required when creating transport")])
  else
    match mapGet w.sig.clients clientId with
    | none => (w, [.reply clientId (.error "client not found")])
    | some client =>
      let roomName := msg.room.getD ""
      let direction := msg.direction.getD "send"
      match engine with
      | .error _ => (w, [.reply clientId (.error "sfu.createTransport failed")])
      | .ok transportId =>
        let client' := { client with
          transports := setAdd client.transports transportId,
          transportInfo := mapSet client.transportInfo transportId
            { room := roomName, direction := direction } }
        let sfu' := { w.sfu with
          transports := mapSet w.sfu.transports transportId
            { roomName := roomName, clientId := clientId } }
        (⟨{ w.sig with clients := mapSet w.sig.clients clientId client' }, sfu'⟩,
         [.reply clientId (.transportCreated transportId)])

/-- `handleConsume` (`src/signaling/router.js` 179-215).  The room must exist
(plain `rooms.get`, no creation), the producer must be listed in the room's
control-plane table, and the client must own the transport.  The adapter's
`createConsumer` looks the producer record up in its own table (throwing
"producer not found" otherwise, surfaced as "sfu.consume failed") and
registers the consumer under the producer record's room
(`src/sfu/operations.js` 238-298). -/
def handleConsume (sfuEnabled : Bool) (w : World) (clientId : String)
    (msg : ConsumeMsg) (engine : Except Unit String) : World × List Event :=
  if !sfuEnabled then
    (w, [.reply clientId (.error "sfu not enabled on server")])
  else if !(jsTruthy msg.transportId && jsTruthy msg.producerId &&
      msg.hasRtpCapabilities) then
    (w, [.reply clientId (.error "transportId, producerId and rtpCapabilities required")])
  else if !jsTruthy msg.room then
    (w, [.reply clientId (.error "room required")])
  else
    let roomName := msg.room.getD ""
    let pid := msg.producerId.getD ""
    match mapGet w.sig.rooms roomName with
    | none => (w, [.reply clientId (.error "room not found")])
    | some roomObj =>
      if (mapGet roomObj.producers pid).isNone then
        (w, [.reply clientId (.error "producer not available in room")])
      else
        match mapGet w.sig.clients clientId with
        | none => (w, [.reply clientId (.error "transport not found")])
        | some client =>
          if !(msg.transportId.getD "" ∈ client.transports) then
            (w, [.reply clientId (.error "transport not found")])
          else
            match mapGet w.sfu.producers pid with
            | none => (w, [.reply clientId (.error "sfu.consume failed")])
            | some producerMeta =>
              match engine with
              | .error _ => (w, [.reply clientId (.error "sfu.consume failed")])
              | .ok consumerId =>
                let client' := { client with
                  consumers := setAdd client.consumers consumerId }
                let sfu' := { w.sfu with
                  consumers := mapSet w.sfu.consumers consumerId
                    { roomName := producerMeta.roomName, clientId := clientId } }
                (⟨{ w.sig with clients := mapSet w.sig.clients clientId client' }, sfu'⟩,
                 [.reply clientId (.consumed consumerId pid)])

/-- Event bridge `transport-closed` handler (`src/signaling/events.js`
5-10): drop the id from the client's `transports` and `transportInfo`. -/
def evtTransportClosed (st : SigState) (clientId transportId : String) : SigState :=
  match mapGet st.clients clientId with
  | none => st
  | some c =>
    let c' := { c with
      transports := setDel c.transports transportId,
      transportInfo := mapDel c.transportInfo transportId }
    { st with clients := mapSet st.clients clientId c' }

/-- Event bridge `producer-closed` handler (`src/signaling/events.js` 12-27):
delete the producer from the room's table (when present) and from the owning
client's set, then broadcast `sfu.producerClosed` to the whole room.  (In the
modular build this event is in fact never emitted — see `sfuCloseProducer` —
but the handler is wired at startup.) -/
def evtProducerClosed (st : SigState) (producerId roomName clientId : String) :
    SigState × List Event :=
  let st1 :=
    match mapGet st.rooms roomName with
    | some room =>
      if (mapGet room.producers producerId).isSome then
        let room' := { room with producers := mapDel room.producers producerId }
        { st with rooms := mapSet st.rooms roomName room' }
      else st
    | none => st
  let st2 :=
    match mapGet st1.clients clientId with
    | some c =>
      let c' := { c with producers := setDel c.producers producerId }
      { st1 with clients := mapSet st1.clients clientId c' }
    | none => st1
  (st2, broadcastToRoom st2 roomName
    (.producerClosedRoom roomName producerId clientId) none)

/-- Event bridge `consumer-closed` handler (`src/signaling/events.js` 29-33). -/
def evtConsumerClosed (st : SigState) (clientId consumerId : String) : SigState :=
  match mapGet st.clients clientId with
  | none => st
  | some c =>
    let c' := { c with consumers := setDel c.consumers consumerId }
    { st with clients := mapSet st.clients clientId c' }

/-- One room iteration of `removeClientFromAllRooms`
(`src/signaling/context.js` 131-145): close the client's producers there,
remove membership, broadcast `member-left`, delete the room if empty. -/
def disconnectRoomStep (clientId : String) (engineThrows : String → Bool)
    (acc : SigState × List Event) (roomName : String) : SigState × List Event :=
  let st1 := closeClientProducers acc.1 roomName clientId engineThrows
  let st2 := removeMemberFromRoom st1 roomName clientId
  let evs := broadcastToRoom st2 roomName (.memberLeft roomName clientId) none
  let st3 := deleteRoomIfEmpty st2 roomName
  (st3, acc.2 ++ evs)

/-- `removeClientFromAllRooms(clientId)` (`src/signaling/context.js`
131-145): iterate the rooms whose `members` contain the client, run the
per-room cleanup, then clear the client's `rooms` set. -/
def removeClientFromAllRooms (st : SigState) (clientId : String)
    (engineThrows : String → Bool) : SigState × List Event :=
  let names := (st.rooms.filter (fun p => clientId ∈ p.2.members)).map (fun p => p.1)
  let res := names.foldl (disconnectRoomStep clientId engineThrows) (st, [])
  match mapGet res.1.clients clientId with
  | some c =>
    let c' := { c with rooms := [] }
    ({ res.1 with clients := mapSet res.1.clients clientId c' }, res.2)
  | none => res

/-- `closeClientResources(clientId)` (`src/signaling/context.js` 147-184):
walk the client's transport/producer/consumer id sets, invoke the adapter's
close for each (failures only logged), and empty the sets.  Adapter effect:
transport and consumer records are unregistered via their close-event
cleanups; producer records survive (`sfuCloseProducer`). -/
def closeClientResources (w : World) (clientId : String) : World :=
  match mapGet w.sig.clients clientId with
  | none => w
  | some c =>
    let sfu1 := c.transports.foldl sfuCloseTransport w.sfu
    let sfu2 := c.producers.foldl sfuCloseProducer sfu1
    let sfu3 := c.consumers.foldl sfuCloseConsumer sfu2
    let c' := { c with
      transports := [],
      transportInfo := c.transportInfo.filter (fun p => !(p.1 ∈ c.transports)),
      producers := [], consumers := [] }
    ⟨{ w.sig with clients := mapSet w.sig.clients clientId c' }, sfu3⟩

/-- The `ws.on("close")` disconnect path (`src/unnamed/part_001` 51-67):
`removeClientFromAllRooms`, `closeClientResources`, the adapter's
`closeClient`, removal from the client registry, then a raw `leave` broadcast
to every remaining registered client. -/
def handleDisconnect (w : World) (clientId : String)
    (engineThrows : String → Bool) : World × List Event :=
  let (sig1, evs1) := removeClientFromAllRooms w.sig clientId engineThrows
  let w2 := closeClientResources ⟨sig1, w.sfu⟩ clientId
  let sfu3 := sfuCloseClient w2.sfu clientId
  let sig3 := { w2.sig with clients := mapDel w2.sig.clients clientId }
  let leaveEvs := sig3.clients.map (fun p => Event.sent p.1 (.leave clientId))
  (⟨sig3, sfu3⟩, evs1 ++ leaveEvs)

/-- One value of a codec `parameters` object (the H264 entry mixes numbers
and strings). -/
inductive ParamVal where
  | num (n : Nat)
  | str (s : String)
deriving DecidableEq, BEq

/-- One entry of a mediasoup media-codec list. -/
structure MediaCodec where
  kind : String
  mimeType : String
  clockRate : Nat
  channels : Option Nat
  parameters : List (String × ParamVal)
deriving DecidableEq, BEq

/-- `DEFAULT_MEDIA_CODECS` of the modular adapter (`src/sfu/context.js`
4-16): audio/opus 48000 Hz 2 channels and video/VP8 90000 Hz — two entries. -/
def DEFAULT_MEDIA_CODECS : List MediaCodec :=
  [ { kind := "audio", mimeType := "audio/opus", clockRate := 48000,
      channels := some 2, parameters := [] },
    { kind := "video", mimeType := "video/VP8", clockRate := 90000,
      channels := none, parameters := [] } ]

/-- The default media-codec list of the legacy monolithic adapter
(`src/sfu.js` 32-54): opus, VP8 and H264 with baseline parameters. -/
def legacyDefaultMediaCodecs : List MediaCodec :=
  [ { kind := "audio", mimeType := "audio/opus", clockRate := 48000,
      channels := some 2, parameters := [] },
    { kind := "video", mimeType := "video/VP8", clockRate := 90000,
      channels := none, parameters := [] },
    { kind := "video", mimeType := "video/H264", clockRate := 90000,
      channels := none,
      parameters :=
        [ ("level-asymmetry-allowed", .num 1),
          ("packetization-mode", .num 1),
          ("profile-level-id", .str "42e01f") ] } ]

/-- Codec list the modular adapter stores in `options.mediaCodecs`
(`src/sfu/context.js` 26: `opts.mediaCodecs || DEFAULT_MEDIA_CODECS`) and
passes to `worker.createRouter` when `ensureRoomContext` lazily creates a
room's router (`src/sfu/context.js` 71-91). -/
def sfuContextMediaCodecs (optsMediaCodecs : Option (List MediaCodec)) :
    List MediaCodec :=
  optsMediaCodecs.getD DEFAULT_MEDIA_CODECS

/-- State-mutating operations of the signaling surface, each bundling the
oracle data its handler consumes.  Handlers that mutate no registry or
adapter state (`list`, `rooms`, `ice`, `offer`/`answer`/`candidate` relays,
`sfu.listProducers`, `sfu.connectTransport`, `admin.*`, `leave`) are omitted:
their step would be the identity on `World`. -/
inductive Op where
  | connect (clientId : String) (wsOpen : Bool) (user : Option User)
  | join (clientId : String) (msg : JoinMsg)
  | leaveRoom (clientId : String) (msg : LeaveRoomMsg) (engineThrows : String → Bool)
  | produce (clientId : String) (msg : ProduceMsg) (engine : Except Unit String) (now : Nat)
  | closeProducer (clientId : String) (msg : CloseProducerMsg)
  | createTransport (clientId : String) (msg : CreateTransportMsg) (engine : Except Unit String)
  | consume (clientId : String) (msg : ConsumeMsg) (engine : Except Unit String)
  | disconnect (clientId : String) (engineThrows : String → Bool)
  | transportClosedEvt (clientId transportId : String)
  | producerClosedEvt (producerId roomName clientId : String)
  | consumerClosedEvt (clientId consumerId : String)

/-- State transition of one handled operation (events projected away). -/
def stepW (w : World) : Op → World
  | .connect cid wsOpen user => ⟨addClient w.sig cid wsOpen user, w.sfu⟩
  | .join cid msg => (handleJoin w cid msg).1
  | .leaveRoom cid msg engineThrows => (handleLeaveRoom w cid msg engineThrows).1
  | .produce cid msg engine now => (handleProduce true w cid msg engine now).1
  | .closeProducer cid msg => (handleCloseProducer w cid msg).1
  | .createTransport cid msg engine => (handleCreateTransport true w cid msg engine).1
  | .consume cid msg engine => (handleConsume true w cid msg engine).1
  | .disconnect cid engineThrows => (handleDisconnect w cid engineThrows).1
  | .transportClosedEvt cid tid => ⟨evtTransportClosed w.sig cid tid, w.sfu⟩
  | .producerClosedEvt pid roomName cid => ⟨(evtProducerClosed w.sig pid roomName cid).1, w.sfu⟩
  | .consumerClosedEvt cid xid => ⟨evtConsumerClosed w.sig cid xid, w.sfu⟩

/-- Server start state: empty registries and adapter tables, with the room
defaults the Config Source will hand to `ensureRoom`. -/
def initWorld (defaults : RoomOptions) : World :=
  ⟨{ clients := [], rooms := [], defaults := defaults }, ⟨[], [], []⟩⟩

/-- States reachable from server start by handled operations. -/
inductive Reachable (defaults : RoomOptions) : World → Prop where
  | init : Reachable defaults (initWorld defaults)
  | step {w : World} (op : Op) : Reachable defaults w → Reachable defaults (stepW w op)

/-- Unrestricted room defaults (`MAX_VIDEO_PER_ROOM` unset → 0, observers
allowed, observer limit 0). -/
def openDefaults : RoomOptions := ⟨0, true, 0⟩

/-- Room defaults with `ALLOW_OBSERVERS=0`. -/
def noObserverDefaults : RoomOptions := ⟨0, false, 0⟩

/-- Room defaults with `MAX_VIDEO_PER_ROOM=1`. -/
def oneVideoDefaults : RoomOptions := ⟨1, true, 0⟩

/-- Scenario: client A connects and opens a transport for room "S", then
produces into "S" — a room nobody ever joined. -/
def prodW1 : World := stepW (initWorld openDefaults) (.connect "A" true none)

def prodW2 : World := stepW prodW1 (.createTransport "A" ⟨some "S", none⟩ (.ok "t1"))

def prodW3 : World :=
  stepW prodW2 (.produce "A" ⟨some "t1", some "audio", true, some "S"⟩ (.ok "p1") 0)

/-- Scenario: client B connects to a server whose rooms reject observers and
attempts an observer join of the unknown room "T". -/
def obsW1 : World := stepW (initWorld noObserverDefaults) (.connect "B" true none)

def obsW2 : World := stepW obsW1 (.join "B" ⟨some "T", some "observer"⟩)

/-- Scenario: client A joins room "R" as publisher (becoming owner), then
joins "R" again as observer. -/
def rejoinW1 : World := stepW (initWorld openDefaults) (.connect "A" true none)

def rejoinW2 : World := stepW rejoinW1 (.join "A" ⟨some "R", none⟩)

def rejoinW3 : World := stepW rejoinW2 (.join "A" ⟨some "R", some "observer"⟩)

/-- Scenario: client A connects, opens a transport for room "R", joins "R",
produces the video producer "p1" there, and then disconnects. -/
def discW1 : World := stepW (initWorld openDefaults) (.connect "A" true none)

def discW2 : World := stepW discW1 (.createTransport "A" ⟨some "R", none⟩ (.ok "t1"))

def discW3 : World := stepW discW2 (.join "A" ⟨some "R", none⟩)

def discW4 : World :=
  stepW discW3 (.produce "A" ⟨some "t1", some "video", true, some "R"⟩ (.ok "p1") 5)

def discW5 : World := stepW discW4 (.disconnect "A" (fun _ => false))

/-- Scenario: publisher A and second publisher B in room "R", both with
transports; A has produced the video producer "pA" (room limit 1). -/
def limitW1 : World := stepW (initWorld oneVideoDefaults) (.connect "A" true none)

def limitW2 : World := stepW limitW1 (.connect "B" true none)

def limitW3 : World := stepW limitW2 (.join "A" ⟨some "R", none⟩)

def limitW4 : World := stepW limitW3 (.join "B" ⟨some "R", none⟩)

def limitW5 : World := stepW limitW4 (.createTransport "A" ⟨some "R", none⟩ (.ok "tA"))

def limitW6 : World := stepW limitW5 (.createTransport "B" ⟨some "R", none⟩ (.ok "tB"))

def limitW7 : World :=
  stepW limitW6 (.produce "A" ⟨some "tA", some "video", true, some "R"⟩ (.ok "pA") 1)

/-- Scenario: publisher A (owner of "R", with transport "tA") plus observer O
in room "R" with its own transport "tO". -/
def obsProdW1 : World := stepW (initWorld openDefaults) (.connect "A" true none)

def obsProdW2 : World := stepW obsProdW1 (.connect "O" true none)

def obsProdW3 : World := stepW obsProdW2 (.join "A" ⟨some "R", none⟩)

def obsProdW4 : World := stepW obsProdW3 (.join "O" ⟨some "R", some "observer"⟩)

def obsProdW5 : World := stepW obsProdW4 (.createTransport "A" ⟨some "R", none⟩ (.ok "tA"))

def obsProdW6 : World := stepW obsProdW5 (.createTransport "O" ⟨some "R", none⟩ (.ok "tO"))

/-- Scenario: an unauthenticated client N, and an admin-authenticated client
M, each on a fresh server. -/
def modW1 : World := stepW (initWorld openDefaults) (.connect "N" true none)

def modW2 : World :=
  stepW (initWorld openDefaults) (.connect "M" true (some ⟨"u1", "admin"⟩))


/-- Every registered room has a non-empty members set. -/
def roomsNonempty (w : World) : Prop :=
  ∀ p ∈ w.sig.rooms, p.2.members ≠ []

instance roomsNonemptyDecidable (w : World) : Decidable (roomsNonempty w) :=
  List.decidableBAll _ _

/-- A join handler run ended in the `joined` reply (as opposed to an error). -/
def joinSucceeded (evs : List Event) : Bool :=
  evs.any fun e =>
    match e with
    | .reply _ (.joined _ _ _) => true
    | _ => false

/-- `ownerId` is null or the id of a current member. -/
def ownerIsMember (r : Room) : Prop :=
  ∀ o, r.ownerId = some o → o ∈ r.members

/-- Every key of `memberRoles` is a current member. -/
def rolesKeysAreMembers (r : Room) : Prop :=
  ∀ p ∈ r.memberRoles, p.1 ∈ r.members

/-- Conjunction of the structural room facts the owner invariant rests on:
`memberRoles` keys are members, and the owner (when set) is a member. -/
def roomInv (r : Room) : Prop :=
  rolesKeysAreMembers r ∧ ownerIsMember r

-- Generic facts about the JS Map/Set embedding used throughout the proofs.

theorem mapSet_mem {α : Type} {m : List (String × α)} {k : String} {v : α} :
    ∀ p ∈ mapSet m k v, p = (k, v) ∨ p ∈ m := by
  induction m with
  | nil => intro p hp; simp [mapSet] at hp; simp [hp]
  | cons hd tl ih =>
    intro p hp
    simp only [mapSet] at hp
    split at hp
    · rcases List.mem_cons.mp hp with h | h
      · exact Or.inl h
      · exact Or.inr (List.mem_cons_of_mem _ h)
    · rcases List.mem_cons.mp hp with h | h
      · exact Or.inr (h ▸ List.mem_cons_self _ _)
      · rcases ih p h with h' | h'
        · exact Or.inl h'
        · exact Or.inr (List.mem_cons_of_mem _ h')

theorem mapGet_set_self {α : Type} (m : List (String × α)) (k : String) (v : α) :
    mapGet (mapSet m k v) k = some v := by
  induction m with
  | nil => simp [mapSet, mapGet]
  | cons hd tl ih =>
    simp only [mapSet]
    split
    · simp [mapGet]
    · simp only [mapGet]
      split
      · rename_i heq; exact absurd heq (by assumption)
      · exact ih

theorem mapGet_set_ne {α : Type} (m : List (String × α)) (k k' : String) (v : α)
    (h : k' ≠ k) : mapGet (mapSet m k v) k' = mapGet m k' := by
  induction m with
  | nil => simp [mapSet, mapGet, Ne.symm h]
  | cons hd tl ih =>
    simp only [mapSet]
    split
    · rename_i hk
      simp only [mapGet]
      rw [if_neg (fun h' => h h'.symm), if_neg (by rw [hk]; exact fun h' => h h'.symm)]
    · simp only [mapGet]
      split
      · rfl
      · exact ih

theorem mapGet_mem {α : Type} {m : List (String × α)} {k : String} {v : α}
    (h : mapGet m k = some v) : (k, v) ∈ m := by
  induction m with
  | nil => simp [mapGet] at h
  | cons hd tl ih =>
    simp only [mapGet] at h
    split at h
    · rename_i heq
      cases h
      rw [← heq]
      exact List.mem_cons_self _ _
    · exact List.mem_cons_of_mem _ (ih h)

theorem mapGet_none_not_mem {α : Type} {m : List (String × α)} {k : String}
    (h : mapGet m k = none) : ∀ p ∈ m, p.1 ≠ k := by
  induction m with
  | nil => intro p hp; simp at hp
  | cons hd tl ih =>
    intro p hp
    simp only [mapGet] at h
    split at h
    · cases h
    · rcases List.mem_cons.mp hp with h' | h'
      · subst h'; assumption
      · exact ih h p h'

theorem mem_mapDel {α : Type} {m : List (String × α)} {k : String} {p : String × α} :
    p ∈ mapDel m k ↔ p ∈ m ∧ p.1 ≠ k := by
  simp [mapDel, List.mem_filter]

theorem mem_setDel {s : List String} {x y : String} :
    y ∈ setDel s x ↔ y ∈ s ∧ y ≠ x := by
  simp [setDel, List.mem_filter]

theorem mem_setAdd_of_mem {s : List String} {x y : String} (h : y ∈ s) :
    y ∈ setAdd s x := by
  simp only [setAdd]
  split
  · exact h
  · exact List.mem_append_left _ h

theorem self_mem_setAdd (s : List String) (x : String) : x ∈ setAdd s x := by
  simp only [setAdd]
  split
  · assumption
  · simp

theorem setAdd_ne_nil (s : List String) (x : String) : setAdd s x ≠ [] := by
  simp only [setAdd]
  split
  · intro h; subst h; simp_all
  · simp
theorem ensureRoom_of_get {st : SigState} {name : String} {r : Room}
    (h : mapGet st.rooms name = some r) : ensureRoom st name = (st, r) := by
  unfold ensureRoom
  simp [h]

/-- C6.  The claim is false for the modular media-engine adapter: the default
codec list handed to `worker.createRouter` by `ensureRoomContext`
(`options.mediaCodecs` with no codec list supplied in `opts`,
`src/sfu/context.js` 4-16, 26, 74-76) has exactly two entries and contains no
video/H264 codec at all. -/
theorem C6_counterexample_no_h264_in_modular_default :
    (sfuContextMediaCodecs none).length = 2 ∧
      (sfuContextMediaCodecs none).all
        (fun c => c.mimeType != "video/H264") = true := by
  decide

/-- C6 (amended).  When no codec list is supplied in options, the modular
adapter's lazily created room router uses exactly two codecs — audio/opus at
48000 Hz with 2 channels and video/VP8 at 90000 Hz; the three-codec list that
additionally carries video/H264 at 90000 Hz with baseline parameters
(level-asymmetry-allowed 1, packetization-mode 1, profile-level-id "42e01f")
is the default of the legacy monolithic `src/sfu.js` only. -/
theorem C6_amended_default_codec_lists :
    (sfuContextMediaCodecs none).map
        (fun c => (c.kind, c.mimeType, c.clockRate, c.channels)) =
      [("audio", "audio/opus", 48000, some 2),
       ("video", "video/VP8", 90000, none)] ∧
    legacyDefaultMediaCodecs.map
        (fun c => (c.kind, c.mimeType, c.clockRate, c.channels)) =
      [("audio", "audio/opus", 48000, some 2),
       ("video", "video/VP8", 90000, none),
       ("video", "video/H264", 90000, none)] ∧
    legacyDefaultMediaCodecs.map (fun c => c.parameters) =
      [[], [],
       [("level-asymmetry-allowed", .num 1),
        ("packetization-mode", .num 1),
        ("profile-level-id", .str "42e01f")]] := by
  decide

/-- C1 is false as stated: after the `sfu.produce` operation of `prodW3`
completes (a produce into room "S", which nobody ever joined —
`handleProduce` calls `ensureRoom` before registering the producer), the
registry holds room "S" with `members.size == 0`; likewise after the failed
observer join of `obsW2` (`handleJoin` calls `ensureRoom` before the
`allowObservers` gate), room "T" stays registered with no members. -/
theorem C1_counterexample_empty_room_registered :
    (mapGet prodW3.sig.rooms "S").map (fun r => r.members) = some [] ∧
    (mapGet prodW3.sig.rooms "S").map (fun r => r.producers.map (fun p => p.1)) =
      some ["p1"] ∧
    (mapGet obsW2.sig.rooms "T").map (fun r => r.members) = some [] ∧
    (handleJoin obsW1 "B" ⟨some "T", some "observer"⟩).2 =
      [.reply "B" (.error "observers disabled for this room")] := by
  decide

/-- C5 is false as stated: in the reachable state `rejoinW3` (publisher A
joins "R" and becomes owner, then re-joins "R" as observer), `ownerId` is
still A while A's current role in `memberRoles` is observer — the owner
refers to a member whose role is neither publisher nor moderator. -/
theorem C5_counterexample_owner_role_observer :
    Reachable openDefaults rejoinW3 ∧
    (mapGet rejoinW3.sig.rooms "R").map (fun r => r.ownerId) = some (some "A") ∧
    (mapGet rejoinW3.sig.rooms "R").map (fun r => mapGet r.memberRoles "A") =
      some (some .observer) ∧
    (mapGet rejoinW3.sig.rooms "R").map (fun r => r.members) = some ["A"] := by
  refine ⟨?_, by decide, by decide, by decide⟩
  show Reachable openDefaults (stepW (stepW (stepW (initWorld openDefaults) _) _) _)
  exact Reachable.step _ (Reachable.step _ (Reachable.step _ Reachable.init))

/-- C7.  The room-registry half of the claim holds on the `discW5` scenario
(client A, owner of "R" with video producer "p1" on transport "t1",
disconnects: the room is deleted, the client entry is removed, the adapter's
transport table is empty), but the adapter's `producers` table still holds
the record `{roomName:"R", clientId:"A"}` for "p1" after the disconnect
completes: `createProducer` registered close handlers that call an undefined
`cleanup` (`src/sfu/operations.js` 232-233), so `unregisterProducer` never
runs on any close path. -/
theorem C7_adapter_producer_record_survives_disconnect :
    discW5.sfu.producers = [("p1", ⟨"R", "A"⟩)] ∧
    discW5.sfu.transports = [] ∧
    discW5.sfu.consumers = [] ∧
    discW5.sig.rooms = [] ∧
    mapGet discW5.sig.clients "A" = none := by
  decide

/-- C2.  A present, well-formed `sfu.produce` from a client whose current
role is observer is answered with exactly the error "observers cannot
produce" and nothing else: the state (room registry, client registry and
adapter tables alike) is returned unchanged and the event list shows no
engine-adapter call. -/
theorem C2_observer_produce_rejected
    (w : World) (clientId : String) (msg : ProduceMsg)
    (engine : Except Unit String) (now : Nat) (c : Client)
    (hfields : (jsTruthy msg.transportId && jsTruthy msg.kind &&
      msg.hasRtpParameters) = true)
    (hroom : jsTruthy msg.room = true)
    (hc : mapGet w.sig.clients clientId = some c)
    (hobs : c.role = .observer) :
    handleProduce true w clientId msg engine now =
      (w, [.reply clientId (.error "observers cannot produce")]) := by
  unfold handleProduce
  simp [hfields, hroom, hc, hobs]

theorem C2_witness :
    handleProduce true obsProdW6 "O"
        ⟨some "tO", some "audio", true, some "R"⟩ (.ok "p9") 0 =
      (obsProdW6, [.reply "O" (.error "observers cannot produce")]) :=
  C2_observer_produce_rejected obsProdW6 "O" _ _ 0
    ⟨"O", true, none, .observer, ["tO"], [("tO", ⟨"R", "send"⟩)], [], [], ["R"]⟩
    (by decide) (by decide) (by decide) (by decide)

/-- C10.  Besides a present `producerId` field, the only precondition
`handleCloseProducer` checks is that the calling client exists and owns at
least one producer: with a non-empty `producers` set the reply is the
`sfu.producerClosed` success for any `producerId` whatsoever (one owned by
another client or unknown to the adapter included), and with an empty set the
reply is the error "no producers for client" no matter which producer is
named. -/
theorem C10_close_producer_only_checks_nonempty
    (w : World) (clientId : String) (pid : String) (c : Client)
    (hc : mapGet w.sig.clients clientId = some c)
    (hpid : pid ≠ "") :
    ( c.producers ≠ [] →
        (handleCloseProducer w clientId ⟨some pid⟩).2 =
          [.reply clientId (.producerClosedReply pid)] ) ∧
    ( c.producers = [] →
        handleCloseProducer w clientId ⟨some pid⟩ =
          (w, [.reply clientId (.error "no producers for client")]) ) := by
  unfold handleCloseProducer
  constructor
  · intro hne
    simp [hc, hne, jsTruthy, hpid]
  · intro he
    simp [hc, he]

theorem C10_witness :
    ( (handleCloseProducer limitW7 "A" ⟨some "zzz"⟩).2 =
        [.reply "A" (.producerClosedReply "zzz")] ) ∧
    ( handleCloseProducer limitW7 "B" ⟨some "pA"⟩ =
        (limitW7, [.reply "B" (.error "no producers for client")]) ) := by
  constructor
  · exact (C10_close_producer_only_checks_nonempty limitW7 "A" "zzz"
      ⟨"A", true, none, .publisher, ["tA"], [("tA", ⟨"R", "send"⟩)], ["pA"], [], ["R"]⟩
      (by decide) (by decide)).1 (by decide)
  · exact (C10_close_producer_only_checks_nonempty limitW7 "B" "pA"
      ⟨"B", true, none, .publisher, ["tB"], [("tB", ⟨"R", "send"⟩)], [], [], ["R"]⟩
      (by decide) (by decide)).2 (by decide)

/-- C4.  A `join` with role "moderator" from an existing client: when the
client has no authenticated user or the user's role is not "admin"
(`isAdminUser` false), the handler replies exactly "only admin users can join
as moderator" and returns the state unchanged (the gate fires before
`ensureRoom`); when the user is an admin, the join commits — the room the
message names contains the client in `members` and in `moderators`, its
`memberRoles` maps the client to moderator, and the first emitted message is
the `joined` reply carrying role moderator. -/
theorem C4_moderator_join_gate
    (w : World) (clientId : String) (msg : JoinMsg) (c : Client)
    (hroom : jsTruthy msg.room = true)
    (hc : mapGet w.sig.clients clientId = some c)
    (hrole : msg.role = some "moderator") :
    ( isAdminUser c = false →
        handleJoin w clientId msg =
          (w, [.reply clientId (.error "only admin users can join as moderator")]) ) ∧
    ( isAdminUser c = true →
        ∃ r', mapGet (handleJoin w clientId msg).1.sig.rooms (msg.room.getD "") = some r' ∧
          clientId ∈ r'.members ∧
          clientId ∈ r'.moderators ∧
          mapGet r'.memberRoles clientId = some .moderator ∧
          (handleJoin w clientId msg).2.head? =
            some (.reply clientId (.joined (msg.room.getD "") clientId .moderator)) ) := by
  constructor
  · intro hadmin
    unfold handleJoin
    simp [hroom, hc, hrole, hadmin]
  · intro hadmin
    unfold handleJoin
    unfold ensureRoom
    cases hr : mapGet w.sig.rooms (msg.room.getD "") with
    | some r0 =>
      simp [hroom, hc, hrole, hadmin, hr]
      split
      all_goals
        refine ⟨_, mapGet_set_self _ _ _, ?_, ?_, ?_⟩
        all_goals simp [self_mem_setAdd, mapGet_set_self]
    | none =>
      simp [hroom, hc, hrole, hadmin, hr]
      refine ⟨_, mapGet_set_self _ _ _, ?_, ?_, ?_⟩
      all_goals simp [self_mem_setAdd, mapGet_set_self]

theorem C4_witness :
    ( handleJoin modW1 "N" ⟨some "R", some "moderator"⟩ =
        (modW1, [.reply "N" (.error "only admin users can join as moderator")]) ) ∧
    ( ∃ r', mapGet (handleJoin modW2 "M" ⟨some "R", some "moderator"⟩).1.sig.rooms "R" =
        some r' ∧
      "M" ∈ r'.members ∧
      "M" ∈ r'.moderators ∧
      mapGet r'.memberRoles "M" = some .moderator ∧
      (handleJoin modW2 "M" ⟨some "R", some "moderator"⟩).2.head? =
        some (.reply "M" (.joined "R" "M" .moderator)) ) := by
  constructor
  · exact (C4_moderator_join_gate modW1 "N" ⟨some "R", some "moderator"⟩
      ⟨"N", true, none, .publisher, [], [], [], [], []⟩
      (by decide) (by decide) (by decide)).1 (by decide)
  · exact (C4_moderator_join_gate modW2 "M" ⟨some "R", some "moderator"⟩
      ⟨"M", true, some ⟨"u1", "admin"⟩, .publisher, [], [], [], [], []⟩
      (by decide) (by decide) (by decide)).2 (by decide)

/-- C8.  `closeClientProducers` deletes every entry of the room's producers
table whose `clientId` equals the given client from both the room's table and
the client's `producers` set, and its result does not depend on which of the
adapter's `closeProducer` calls throw (the catch block only logs): the
control-plane entries are removed even on adapter failure. -/
theorem C8_close_client_producers_removes_entries
    (st : SigState) (roomName clientId : String)
    (engineThrows : String → Bool) (r : Room)
    (hr : mapGet st.rooms roomName = some r) :
    (∀ engineThrows2, closeClientProducers st roomName clientId engineThrows =
      closeClientProducers st roomName clientId engineThrows2) ∧
    (∃ r', mapGet (closeClientProducers st roomName clientId engineThrows).rooms
        roomName = some r' ∧
      (∀ p ∈ r'.producers, p.2.clientId ≠ clientId) ∧
      (∀ p ∈ r.producers, p.2.clientId ≠ clientId → p ∈ r'.producers)) ∧
    (∀ c, mapGet st.clients clientId = some c →
      ∃ c', mapGet (closeClientProducers st roomName clientId engineThrows).clients
          clientId = some c' ∧
        ∀ pid info, (pid, info) ∈ r.producers → info.clientId = clientId →
          pid ∉ c'.producers) := by
  refine ⟨fun engineThrows2 => rfl, ?_, ?_⟩
  · unfold closeClientProducers
    simp only [hr]
    cases hcl : mapGet st.clients clientId with
    | some c =>
      simp only [hcl]
      refine ⟨_, mapGet_set_self _ _ _, ?_, ?_⟩
      · intro p hp
        have := List.of_mem_filter hp
        simpa using this
      · intro p hp hne
        exact List.mem_filter.mpr ⟨hp, by simpa using hne⟩
    | none =>
      simp only [hcl]
      refine ⟨_, mapGet_set_self _ _ _, ?_, ?_⟩
      · intro p hp
        have := List.of_mem_filter hp
        simpa using this
      · intro p hp hne
        exact List.mem_filter.mpr ⟨hp, by simpa using hne⟩
  · intro c hcl
    unfold closeClientProducers
    simp only [hr, hcl]
    refine ⟨_, mapGet_set_self _ _ _, ?_⟩
    intro pid info hmem hcid hpin
    have hfilt := List.of_mem_filter hpin
    simp only [Bool.not_eq_true', decide_eq_false_iff_not] at hfilt
    exact hfilt (List.mem_map.mpr
      ⟨(pid, info), List.mem_filter.mpr ⟨hmem, by simpa using hcid⟩, rfl⟩)

theorem C8_witness :
    ∃ c', mapGet (closeClientProducers limitW7.sig "R" "A"
        (fun _ => true)).clients "A" = some c' ∧
      ∀ pid info,
        (pid, info) ∈ (⟨"R", ["A", "B"], [("A", .publisher), ("B", .publisher)],
          [("pA", ⟨"A", "video", 1⟩)], [], ⟨1, true, 0⟩, some "A", []⟩ :
            Room).producers →
        info.clientId = "A" → pid ∉ c'.producers :=
  (C8_close_client_producers_removes_entries limitW7.sig "R" "A" (fun _ => true)
    ⟨"R", ["A", "B"], [("A", .publisher), ("B", .publisher)],
      [("pA", ⟨"A", "video", 1⟩)], [], ⟨1, true, 0⟩, some "A", []⟩
    (by decide)).2.2
    ⟨"A", true, none, .publisher, ["tA"], [("tA", ⟨"R", "send"⟩)], ["pA"], [], ["R"]⟩
    (by decide)

/-- C3.  For a well-formed `sfu.produce` of kind "video" from a non-observer
client owning the transport, in a registered room whose
`options.maxVideoProducers` is positive: when the room's current count of
video producer entries has reached the limit, the handler replies exactly
`room already has N video producers` (N the limit, interpolated) and changes
nothing; when the count is below the limit and the engine call succeeds, the
producer is registered in the room's producers table and in the client's
producers set and the `sfu.produced` reply is emitted. -/
theorem C3_video_producer_limit
    (w : World) (clientId : String) (msg : ProduceMsg)
    (engine : Except Unit String) (now : Nat)
    (c : Client) (r : Room) (roomName : String)
    (hfields : (jsTruthy msg.transportId && jsTruthy msg.kind &&
      msg.hasRtpParameters) = true)
    (hroom : msg.room = some roomName) (hrn : roomName ≠ "")
    (hc : mapGet w.sig.clients clientId = some c)
    (hobs : c.role ≠ .observer)
    (ht : msg.transportId.getD "" ∈ c.transports)
    (hr : mapGet w.sig.rooms roomName = some r)
    (hkind : msg.kind = some "video")
    (hNpos : 0 < r.options.maxVideoProducers) :
    ( r.options.maxVideoProducers ≤
        (r.producers.filter (fun p => p.2.kind = "video")).length →
      handleProduce true w clientId msg engine now =
        (w, [.reply clientId (.error ("room already has " ++
          toString r.options.maxVideoProducers ++ " video producers"))]) ) ∧
    ( (r.producers.filter (fun p => p.2.kind = "video")).length <
        r.options.maxVideoProducers →
      ∀ pid, engine = .ok pid →
        ∃ r', mapGet (handleProduce true w clientId msg engine
            now).1.sig.rooms roomName = some r' ∧
          mapGet r'.producers pid = some ⟨clientId, "video", now⟩ ∧
          (∃ c', mapGet (handleProduce true w clientId msg engine
              now).1.sig.clients clientId = some c' ∧ pid ∈ c'.producers) ∧
          Event.reply clientId (.produced pid "video") ∈
            (handleProduce true w clientId msg engine now).2 ) := by
  have hens : ensureRoom w.sig roomName = (w.sig, r) := ensureRoom_of_get hr
  obtain ⟨⟨h1, h2⟩, h3⟩ : (jsTruthy msg.transportId = true ∧ jsTruthy msg.kind = true) ∧
      msg.hasRtpParameters = true := by simpa [Bool.and_eq_true] using hfields
  have hjt : jsTruthy (some roomName) = true := by simp [jsTruthy, hrn]
  have hjv : jsTruthy (some "video") = true := by simp [jsTruthy]
  constructor
  · intro hge
    unfold handleProduce
    simp [h1, h2, h3, hroom, hjt, hjv, hc, hobs, ht, hens, hkind, hNpos, hge]
  · intro hlt pid hpid
    unfold handleProduce
    simp only [h1, h2, h3, hroom, hjt, hjv, hc, hpid, hens, hkind, Option.getD_some,
      Bool.and_self, Bool.not_true, Bool.false_and, Bool.and_false, if_false]
    simp [hobs, ht, Nat.not_le.mpr hlt]
    refine ⟨_, mapGet_set_self _ _ _, ?_, ?_⟩
    · exact mapGet_set_self _ _ _
    · exact ⟨_, mapGet_set_self _ _ _, self_mem_setAdd _ _⟩

theorem C3_witness :
    ( handleProduce true limitW7 "B" ⟨some "tB", some "video", true, some "R"⟩
        (.ok "pB") 2 =
      (limitW7, [.reply "B" (.error "room already has 1 video producers")]) ) ∧
    ( ∃ r', mapGet (handleProduce true limitW6 "A"
          ⟨some "tA", some "video", true, some "R"⟩ (.ok "pA") 1).1.sig.rooms "R" =
        some r' ∧
      mapGet r'.producers "pA" = some ⟨"A", "video", 1⟩ ∧
      (∃ c', mapGet (handleProduce true limitW6 "A"
          ⟨some "tA", some "video", true, some "R"⟩ (.ok "pA") 1).1.sig.clients "A" =
        some c' ∧ "pA" ∈ c'.producers) ∧
      Event.reply "A" (.produced "pA" "video") ∈
        (handleProduce true limitW6 "A"
          ⟨some "tA", some "video", true, some "R"⟩ (.ok "pA") 1).2 ) := by
  constructor
  · exact (C3_video_producer_limit limitW7 "B"
      ⟨some "tB", some "video", true, some "R"⟩ (.ok "pB") 2
      ⟨"B", true, none, .publisher, ["tB"], [("tB", ⟨"R", "send"⟩)], [], [], ["R"]⟩
      ⟨"R", ["A", "B"], [("A", .publisher), ("B", .publisher)],
        [("pA", ⟨"A", "video", 1⟩)], [], ⟨1, true, 0⟩, some "A", []⟩ "R"
      (by decide) (by decide) (by decide) (by decide) (by decide) (by decide)
      (by decide) (by decide) (by decide)).1 (by decide)
  · exact (C3_video_producer_limit limitW6 "A"
      ⟨some "tA", some "video", true, some "R"⟩ (.ok "pA") 1
      ⟨"A", true, none, .publisher, ["tA"], [("tA", ⟨"R", "send"⟩)], [], [], ["R"]⟩
      ⟨"R", ["A", "B"], [("A", .publisher), ("B", .publisher)],
        [], [], ⟨1, true, 0⟩, some "A", []⟩ "R"
      (by decide) (by decide) (by decide) (by decide) (by decide) (by decide)
      (by decide) (by decide) (by decide)).2 (by decide) "pA" rfl

theorem mem_broadcastToRoom
    (st : SigState) (roomName : String) (m : Msg) (excl : Option String)
    (r' : Room) (hr' : mapGet st.rooms roomName = some r')
    (t : String) (htm : t ∈ r'.members) (hne : ¬(excl = some t))
    (cm : Client) (hcm : mapGet st.clients t = some cm)
    (hopen : cm.wsOpen = true) :
    Event.sent t m ∈ broadcastToRoom st roomName m excl := by
  unfold broadcastToRoom
  simp only [hr']
  refine List.mem_flatMap.mpr ⟨t, List.mem_filter.mpr ⟨htm, by simp [hne]⟩, ?_⟩
  unfold sendToClient
  simp [hcm, hopen]

theorem broadcastToRoom_sent_inv
    (st : SigState) (roomName : String) (m : Msg) (excl : Option String)
    (t : String) (m' : Msg)
    (h : Event.sent t m' ∈ broadcastToRoom st roomName m excl) :
    m' = m ∧ ¬(excl = some t) ∧
      ∃ r', mapGet st.rooms roomName = some r' ∧ t ∈ r'.members := by
  unfold broadcastToRoom at h
  cases hr : mapGet st.rooms roomName with
  | none => rw [hr] at h; simp at h
  | some r' =>
    rw [hr] at h
    simp only [] at h
    obtain ⟨mid, hmid, hev⟩ := List.mem_flatMap.mp h
    have hmemf := List.mem_filter.mp hmid
    unfold sendToClient at hev
    rcases hcl : mapGet st.clients mid with _ | cm
    · rw [hcl] at hev; simp at hev
    · rw [hcl] at hev
      by_cases ho : cm.wsOpen = true
      · simp only [ho, if_true, List.mem_singleton, Event.sent.injEq] at hev
        obtain ⟨het, hem⟩ := hev
        subst het
        subst hem
        exact ⟨rfl, by simpa using hmemf.2, ⟨r', rfl, hmemf.1⟩⟩
      · simp [ho] at hev

/-- C9.  For a successful `sfu.produce` (all gates passed, engine returned
`pid`): the final state's room holds the new producer entry while its members
are unchanged; every current room member other than the producing client
(each registered with an open socket) receives the `sfu.newProducer`
broadcast; and every `sfu.newProducer` the handler emits goes to a room
member different from the producer — the producer's own channel never
receives it.  The broadcast recipients are computed from the post-insertion
room (`roomObj.producers.set` precedes `broadcastToRoom` in the source), so
`sfu.newProducer` is emitted only after the room's table contains `pid`.  -/
theorem C9_new_producer_broadcast
    (w : World) (clientId : String) (msg : ProduceMsg)
    (now : Nat) (pid : String) (c : Client) (r : Room) (roomName : String)
    (hfields : (jsTruthy msg.transportId && jsTruthy msg.kind &&
      msg.hasRtpParameters) = true)
    (hroom : msg.room = some roomName) (hrn : roomName ≠ "")
    (hc : mapGet w.sig.clients clientId = some c)
    (hobs : c.role ≠ .observer)
    (ht : msg.transportId.getD "" ∈ c.transports)
    (hr : mapGet w.sig.rooms roomName = some r)
    (hguard : (msg.kind.getD "" = "video" && r.options.maxVideoProducers > 0 &&
      (r.producers.filter (fun p => p.2.kind = "video")).length ≥
        r.options.maxVideoProducers) = false)
    (hdeliver : ∀ t ∈ r.members, t ≠ clientId →
      ∃ cm, mapGet w.sig.clients t = some cm ∧ cm.wsOpen = true) :
    (∃ r', mapGet (handleProduce true w clientId msg (.ok pid)
        now).1.sig.rooms roomName = some r' ∧
      mapGet r'.producers pid = some ⟨clientId, msg.kind.getD "", now⟩ ∧
      r'.members = r.members) ∧
    (∀ t ∈ r.members, t ≠ clientId →
      Event.sent t (.newProducer roomName pid clientId
        (c.user.map (fun u => u.id)) (msg.kind.getD "")) ∈
        (handleProduce true w clientId msg (.ok pid) now).2) ∧
    (∀ t room2 pid2 cid2 pu k,
      Event.sent t (.newProducer room2 pid2 cid2 pu k) ∈
        (handleProduce true w clientId msg (.ok pid) now).2 →
      t ∈ r.members ∧ t ≠ clientId) := by
  have hens : ensureRoom w.sig roomName = (w.sig, r) := ensureRoom_of_get hr
  obtain ⟨⟨h1, h2⟩, h3⟩ : (jsTruthy msg.transportId = true ∧ jsTruthy msg.kind = true) ∧
      msg.hasRtpParameters = true := by simpa [Bool.and_eq_true] using hfields
  have hjt : jsTruthy (some roomName) = true := by simp [jsTruthy, hrn]
  unfold handleProduce
  simp only [h1, h2, h3, hroom, hjt, hens, Option.getD_some, hc,
    Bool.and_self, Bool.not_true, Bool.false_and, Bool.and_false, if_false]
  simp only [hguard]
  simp [hobs, ht]
  refine ⟨⟨_, mapGet_set_self _ _ _, mapGet_set_self _ _ _, rfl⟩, ?_, ?_⟩
  · intro t htm htne
    obtain ⟨cm, hcm, hopen⟩ := hdeliver t htm htne
    refine mem_broadcastToRoom _ roomName _ (some clientId)
      ({ r with producers := mapSet r.producers pid ⟨clientId, msg.kind.getD "", now⟩ })
      (mapGet_set_self _ _ _) t htm
      (fun h => htne (Option.some.inj h).symm) cm ?_ hopen
    rw [mapGet_set_ne _ _ _ _ (fun h => htne h)]
    exact hcm
  · intro t room2 pid2 cid2 pu k hmem
    obtain ⟨hmsg, hnexcl, r'', hr'', htm⟩ :=
      broadcastToRoom_sent_inv _ roomName _ (some clientId) t _ hmem
    have htne : t ≠ clientId := fun h => hnexcl (by rw [h])
    simp only [mapGet_set_self, Option.some.injEq] at hr''
    subst hr''
    exact ⟨by simpa using htm, htne⟩

theorem C9_witness :
    Event.sent "B" (.newProducer "R" "pA" "A" none "video") ∈
      (handleProduce true limitW6 "A"
        ⟨some "tA", some "video", true, some "R"⟩ (.ok "pA") 1).2 :=
  (C9_new_producer_broadcast limitW6 "A"
    ⟨some "tA", some "video", true, some "R"⟩ 1 "pA"
    ⟨"A", true, none, .publisher, ["tA"], [("tA", ⟨"R", "send"⟩)], [], [], ["R"]⟩
    ⟨"R", ["A", "B"], [("A", .publisher), ("B", .publisher)],
      [], [], ⟨1, true, 0⟩, some "A", []⟩ "R"
    (by decide) (by decide) (by decide) (by decide) (by decide) (by decide)
    (by decide) (by decide)
    (by
      intro t htm htne
      simp only [List.mem_cons, List.not_mem_nil, or_false] at htm
      rcases htm with h | h
      · exact absurd h htne
      · subst h
        exact ⟨⟨"B", true, none, .publisher, ["tB"],
          [("tB", ⟨"R", "send"⟩)], [], [], ["R"]⟩, by decide, rfl⟩)).2.1
    "B" (by decide) (by decide)

theorem mapSet_mapSet_same {α : Type} (m : List (String × α)) (k : String) (v v' : α) :
    mapSet (mapSet m k v) k v' = mapSet m k v' := by
  induction m with
  | nil => simp [mapSet]
  | cons hd tl ih =>
    simp only [mapSet]
    split
    · simp [mapSet]
    · simp only [mapSet]
      rw [if_neg (by assumption)]
      rw [ih]

theorem mapSet_append_fresh {α : Type} (m : List (String × α)) (k : String) (v0 v : α)
    (h : mapGet m k = none) : mapSet (m ++ [(k, v0)]) k v = m ++ [(k, v)] := by
  induction m with
  | nil => simp [mapSet]
  | cons hd tl ih =>
    obtain ⟨k', v'⟩ := hd
    simp only [mapGet] at h
    split at h
    · cases h
    · rename_i hne
      show mapSet ((k', v') :: (tl ++ [(k, v0)])) k v = (k', v') :: (tl ++ [(k, v)])
      simp only [mapSet]
      rw [if_neg hne, ih h]

theorem roomInv_removeMemberRoom (r : Room) (cid : String) (h : roomInv r) :
    roomInv (removeMemberRoom r cid) := by
  obtain ⟨hkeys, howner⟩ := h
  unfold removeMemberRoom
  constructor
  · intro p hp
    simp only at hp ⊢
    have := mem_mapDel.mp hp
    exact mem_setDel.mpr ⟨hkeys p this.1, this.2⟩
  · intro o ho
    simp only at ho ⊢
    split at ho
    · obtain ⟨p, hpmem, hpo⟩ := Option.map_eq_some'.mp ho
      have hmem := List.mem_of_find?_eq_some hpmem
      have hdel := mem_mapDel.mp hmem
      subst hpo
      exact mem_setDel.mpr ⟨hkeys p hdel.1, hdel.2⟩
    · rename_i hcase
      have hne : o ≠ cid := by
        intro he
        subst he
        exact hcase ho
      exact mem_setDel.mpr ⟨howner o ho, hne⟩

theorem closeClientProducers_rooms_eq (st : SigState) (k cid : String)
    (f : String → Bool) (room : Room) (hr : mapGet st.rooms k = some room) :
    (closeClientProducers st k cid f).rooms =
      mapSet st.rooms k
        { room with producers :=
            room.producers.filter (fun p => !(p.2.clientId = cid)) } := by
  unfold closeClientProducers
  simp only [hr]
  split <;> rfl

theorem closeClientProducers_none (st : SigState) (k cid : String)
    (f : String → Bool) (hr : mapGet st.rooms k = none) :
    closeClientProducers st k cid f = st := by
  unfold closeClientProducers
  simp [hr]

theorem removeMemberFromRoom_rooms_eq (st : SigState) (k cid : String) (room : Room)
    (hr : mapGet st.rooms k = some room) :
    (removeMemberFromRoom st k cid).rooms =
      mapSet st.rooms k (removeMemberRoom room cid) := by
  unfold removeMemberFromRoom
  simp [hr]

theorem removeMemberFromRoom_none (st : SigState) (k cid : String)
    (hr : mapGet st.rooms k = none) : removeMemberFromRoom st k cid = st := by
  unfold removeMemberFromRoom
  simp [hr]

theorem deleteRoomIfEmpty_rooms (st : SigState) (k : String) (v : Room)
    (hget : mapGet st.rooms k = some v) :
    (deleteRoomIfEmpty st k).rooms =
      if v.members = [] then mapDel st.rooms k else st.rooms := by
  unfold deleteRoomIfEmpty
  simp only [hget]
  split <;> simp_all

theorem deleteRoomIfEmpty_none (st : SigState) (k : String)
    (hget : mapGet st.rooms k = none) : deleteRoomIfEmpty st k = st := by
  unfold deleteRoomIfEmpty
  simp [hget]

theorem nonempty_after_set_delete (m : List (String × Room)) (k : String) (v : Room)
    (hm : ∀ p ∈ m, p.2.members ≠ []) :
    ∀ p ∈ (if v.members = [] then mapDel (mapSet m k v) k else mapSet m k v),
      p.2.members ≠ [] := by
  intro p hp
  split at hp
  · have hd := mem_mapDel.mp hp
    rcases mapSet_mem p hd.1 with he | hmem
    · exact absurd (by rw [he]) hd.2
    · exact hm p hmem
  · rename_i hne
    rcases mapSet_mem p hp with he | hmem
    · rw [he]; exact hne
    · exact hm p hmem

theorem delete_after_set_preserves (stX : SigState) (k : String) (room2 : Room)
    (m : List (String × Room)) (hrooms : stX.rooms = mapSet m k room2)
    (hm : ∀ p ∈ m, p.2.members ≠ []) :
    ∀ p ∈ (deleteRoomIfEmpty stX k).rooms, p.2.members ≠ [] := by
  have hget : mapGet stX.rooms k = some room2 := by
    rw [hrooms]; exact mapGet_set_self _ _ _
  rw [deleteRoomIfEmpty_rooms stX k room2 hget, hrooms]
  exact nonempty_after_set_delete m k room2 hm

theorem handleLeaveRoom_preserves_nonempty (w : World) (cid : String)
    (msg : LeaveRoomMsg) (f : String → Bool)
    (h : roomsNonempty w) : roomsNonempty (handleLeaveRoom w cid msg f).1 := by
  unfold handleLeaveRoom
  split
  · exact h
  cases hr : mapGet w.sig.rooms (msg.room.getD "") with
  | none => simp only [hr]; exact h
  | some room =>
    simp only [hr]
    intro p hp
    refine delete_after_set_preserves _ (msg.room.getD "")
      (removeMemberRoom
        { room with producers :=
            room.producers.filter (fun q => !(q.2.clientId = cid)) } cid)
      w.sig.rooms ?_ h p hp
    have h1 := closeClientProducers_rooms_eq w.sig (msg.room.getD "") cid f room hr
    have h2 : mapGet (closeClientProducers w.sig (msg.room.getD "") cid f).rooms
        (msg.room.getD "") = some
          { room with producers :=
              room.producers.filter (fun q => !(q.2.clientId = cid)) } := by
      rw [h1]; exact mapGet_set_self _ _ _
    have h3 := removeMemberFromRoom_rooms_eq
      (closeClientProducers w.sig (msg.room.getD "") cid f) (msg.room.getD "") cid _ h2
    cases hcl : mapGet (removeMemberFromRoom
        (closeClientProducers w.sig (msg.room.getD "") cid f)
        (msg.room.getD "") cid).clients cid <;>
      simp only [hcl] <;> rw [h3, h1, mapSet_mapSet_same]

theorem disconnectRoomStep_preserves (cid : String) (f : String → Bool)
    (acc : SigState × List Event) (k : String)
    (h : ∀ p ∈ acc.1.rooms, p.2.members ≠ []) :
    ∀ p ∈ (disconnectRoomStep cid f acc k).1.rooms, p.2.members ≠ [] := by
  unfold disconnectRoomStep
  dsimp only
  cases hr : mapGet acc.1.rooms k with
  | none =>
    rw [closeClientProducers_none acc.1 k cid f hr,
      removeMemberFromRoom_none acc.1 k cid hr,
      deleteRoomIfEmpty_none acc.1 k hr]
    exact h
  | some room =>
    intro p hp
    refine delete_after_set_preserves _ k
      (removeMemberRoom
        { room with producers :=
            room.producers.filter (fun q => !(q.2.clientId = cid)) } cid)
      acc.1.rooms ?_ h p hp
    have h1 := closeClientProducers_rooms_eq acc.1 k cid f room hr
    have h2 : mapGet (closeClientProducers acc.1 k cid f).rooms k = some
        { room with producers :=
            room.producers.filter (fun q => !(q.2.clientId = cid)) } := by
      rw [h1]; exact mapGet_set_self _ _ _
    have h3 := removeMemberFromRoom_rooms_eq
      (closeClientProducers acc.1 k cid f) k cid _ h2
    rw [h3, h1, mapSet_mapSet_same]

theorem foldl_disconnect_preserves (cid : String) (f : String → Bool)
    (names : List String) (acc : SigState × List Event)
    (h : ∀ p ∈ acc.1.rooms, p.2.members ≠ []) :
    ∀ p ∈ (names.foldl (disconnectRoomStep cid f) acc).1.rooms,
      p.2.members ≠ [] := by
  induction names generalizing acc with
  | nil => exact h
  | cons hd tl ih =>
    exact ih (disconnectRoomStep cid f acc hd) (disconnectRoomStep_preserves cid f acc hd h)

theorem removeClientFromAllRooms_preserves (st : SigState) (cid : String)
    (f : String → Bool) (h : ∀ p ∈ st.rooms, p.2.members ≠ []) :
    ∀ p ∈ (removeClientFromAllRooms st cid f).1.rooms, p.2.members ≠ [] := by
  unfold removeClientFromAllRooms
  have hf := foldl_disconnect_preserves cid f
    ((st.rooms.filter (fun p => cid ∈ p.2.members)).map (fun p => p.1)) (st, []) h
  cases hcl : mapGet (((st.rooms.filter (fun p => cid ∈ p.2.members)).map
      (fun p => p.1)).foldl (disconnectRoomStep cid f) (st, [])).1.clients cid <;>
    simp only [hcl] <;> exact hf

theorem handleDisconnect_preserves_nonempty (w : World) (cid : String)
    (f : String → Bool) (h : roomsNonempty w) :
    roomsNonempty (handleDisconnect w cid f).1 := by
  unfold handleDisconnect
  have hrm := removeClientFromAllRooms_preserves w.sig cid f h
  unfold closeClientResources
  cases hcl : mapGet (removeClientFromAllRooms w.sig cid f).1.clients cid <;>
    simp only [hcl] <;> exact hrm

theorem nonempty_mapSet (m : List (String × Room)) (k : String) (v : Room)
    (hm : ∀ p ∈ m, p.2.members ≠ []) (hv : v.members ≠ []) :
    ∀ p ∈ mapSet m k v, p.2.members ≠ [] := by
  intro p hp
  rcases mapSet_mem p hp with he | hmem
  · rw [he]; exact hv
  · exact hm p hmem

theorem nonempty_append (m : List (String × Room)) (k : String) (v : Room)
    (hm : ∀ p ∈ m, p.2.members ≠ []) (hv : v.members ≠ []) :
    ∀ p ∈ m ++ [(k, v)], p.2.members ≠ [] := by
  intro p hp
  rcases List.mem_append.mp hp with hmem | hone
  · exact hm p hmem
  · rw [List.mem_singleton.mp hone]; exact hv

theorem handleJoin_success_preserves_nonempty (w : World) (cid : String)
    (msg : JoinMsg) (h : roomsNonempty w)
    (hs : joinSucceeded (handleJoin w cid msg).2 = true) :
    roomsNonempty (handleJoin w cid msg).1 := by
  unfold handleJoin at hs ⊢
  by_cases hroom : jsTruthy msg.room = true
  case neg =>
    simp [hroom, joinSucceeded] at hs
  case pos =>
  cases hc : mapGet w.sig.clients cid with
  | none => simp [hroom, hc, joinSucceeded] at hs
  | some client =>
  unfold ensureRoom at hs ⊢
  cases hr : mapGet w.sig.rooms (msg.room.getD "") with
  | some r0 =>
    by_cases ho : msg.role = some "observer"
    · by_cases hallow : r0.options.allowObservers = true
      · by_cases hlim : 0 < r0.options.maxObservers ∧
            r0.options.maxObservers ≤ r0.observers.length
        · simp [hroom, hc, hr, ho, hallow, hlim, joinSucceeded] at hs
        · simp only [hroom, hc, hr, ho, hallow] at hs ⊢
          simp [hlim]
          intro p hp
          rcases mapSet_mem p hp with he | hmem
          · rw [he]
            repeat' split
            all_goals simp [setAdd_ne_nil]
          · exact h p hmem
      · simp [hroom, hc, hr, ho, hallow, joinSucceeded] at hs
    · by_cases hm : msg.role = some "moderator"
      · by_cases hadm : isAdminUser client = true
        · simp only [hroom, hc, hr, ho, hm] at hs ⊢
          simp [hadm]
          intro p hp
          rcases mapSet_mem p hp with he | hmem
          · rw [he]
            repeat' split
            all_goals simp [setAdd_ne_nil]
          · exact h p hmem
        · simp [hroom, hc, hr, ho, hm, hadm, joinSucceeded] at hs
      · simp only [hroom, hc, hr, ho, hm] at hs ⊢
        simp
        intro p hp
        rcases mapSet_mem p hp with he | hmem
        · rw [he]
          repeat' split
          all_goals simp [setAdd_ne_nil]
        · exact h p hmem
  | none =>
    by_cases ho : msg.role = some "observer"
    · by_cases hallow : w.sig.defaults.allowObservers = true
      · have hlim : ¬(0 < w.sig.defaults.maxObservers ∧
            w.sig.defaults.maxObservers = 0) := by omega
        simp only [hroom, hc, hr, ho, hallow] at hs ⊢
        simp [hlim]
        intro p hp
        rw [mapSet_append_fresh _ _ _ _ hr] at hp
        rcases List.mem_append.mp hp with hmem | hone
        · exact h p hmem
        · rw [List.mem_singleton.mp hone]
          repeat' split
          all_goals simp [setAdd_ne_nil]
      · simp [hroom, hc, hr, ho, hallow, joinSucceeded] at hs
    · by_cases hm : msg.role = some "moderator"
      · by_cases hadm : isAdminUser client = true
        · simp only [hroom, hc, hr, ho, hm] at hs ⊢
          simp [hadm]
          intro p hp
          rw [mapSet_append_fresh _ _ _ _ hr] at hp
          rcases List.mem_append.mp hp with hmem | hone
          · exact h p hmem
          · rw [List.mem_singleton.mp hone]
            repeat' split
            all_goals simp [setAdd_ne_nil]
        · simp [hroom, hc, hr, ho, hm, hadm, joinSucceeded] at hs
      · simp only [hroom, hc, hr, ho, hm] at hs ⊢
        simp
        intro p hp
        rw [mapSet_append_fresh _ _ _ _ hr] at hp
        rcases List.mem_append.mp hp with hmem | hone
        · exact h p hmem
        · rw [List.mem_singleton.mp hone]
          repeat' split
          all_goals simp [setAdd_ne_nil]

theorem roomsNonempty_ite (c : Prop) [inst : Decidable c] (A B : World × List Event)
    (ha : roomsNonempty A.1) (hb : roomsNonempty B.1) :
    roomsNonempty (if c then A else B).1 := by
  split
  · exact ha
  · exact hb

theorem handleProduce_registered_preserves_nonempty (w : World) (cid : String)
    (msg : ProduceMsg) (engine : Except Unit String) (now : Nat) (r : Room)
    (h : roomsNonempty w)
    (hr : mapGet w.sig.rooms (msg.room.getD "") = some r) :
    roomsNonempty (handleProduce true w cid msg engine now).1 := by
  have hens : ensureRoom w.sig (msg.room.getD "") = (w.sig, r) := ensureRoom_of_get hr
  have hrm : r.members ≠ [] := h _ (mapGet_mem hr)
  unfold handleProduce
  split
  · exact h
  split
  · exact h
  split
  · exact h
  cases hc : mapGet w.sig.clients cid with
  | none => exact h
  | some client =>
    dsimp only
    rw [hens]
    refine roomsNonempty_ite _ _ _ h ?_
    refine roomsNonempty_ite _ _ _ h ?_
    cases engine with
    | error e => exact roomsNonempty_ite _ _ _ h h
    | ok pid =>
      refine roomsNonempty_ite _ _ _ h ?_
      intro p hp
      exact nonempty_mapSet w.sig.rooms (msg.room.getD "")
        { r with producers := mapSet r.producers pid ⟨cid, msg.kind.getD "", now⟩ }
        h hrm p hp

/-- C1 (amended).  The empty-room property holds for `leaveRoom`, for the
disconnect path, for every `join` that succeeds, and for `sfu.produce` when
the target room is already registered: starting from a state whose registered
rooms all have members, each of these leaves every registered room with a
non-empty members set (`leaveRoom` and the disconnect path delete a room
whose members set becomes empty).  The exceptions exhibited by the
counterexample — `sfu.produce` naming an unregistered room, and an observer
join that fails its gate after `ensureRoom` — are excluded. -/
theorem C1_amended_no_empty_rooms (w : World) (h : roomsNonempty w) :
    (∀ cid msg f, roomsNonempty (handleLeaveRoom w cid msg f).1) ∧
    (∀ cid f, roomsNonempty (handleDisconnect w cid f).1) ∧
    (∀ cid msg, joinSucceeded (handleJoin w cid msg).2 = true →
      roomsNonempty (handleJoin w cid msg).1) ∧
    (∀ cid msg engine now r, mapGet w.sig.rooms (msg.room.getD "") = some r →
      roomsNonempty (handleProduce true w cid msg engine now).1) :=
  ⟨fun cid msg f => handleLeaveRoom_preserves_nonempty w cid msg f h,
   fun cid f => handleDisconnect_preserves_nonempty w cid f h,
   fun cid msg hs => handleJoin_success_preserves_nonempty w cid msg h hs,
   fun cid msg engine now r hr =>
     handleProduce_registered_preserves_nonempty w cid msg engine now r h hr⟩

theorem C1_witness :
    roomsNonempty (handleLeaveRoom discW3 "A" ⟨some "R"⟩ (fun _ => false)).1 ∧
    roomsNonempty (handleDisconnect discW4 "A" (fun _ => false)).1 :=
  ⟨(C1_amended_no_empty_rooms discW3 (by decide)).1 "A" ⟨some "R"⟩ (fun _ => false),
   (C1_amended_no_empty_rooms discW4 (by decide)).2.1 "A" (fun _ => false)⟩

theorem entries_mapSet (P : Room → Prop) (m : List (String × Room)) (k : String)
    (v : Room) (hm : ∀ p ∈ m, P p.2) (hv : P v) : ∀ p ∈ mapSet m k v, P p.2 := by
  intro p hp
  rcases mapSet_mem p hp with he | hmem
  · rw [he]; exact hv
  · exact hm p hmem

theorem entries_append_one (P : Room → Prop) (m : List (String × Room)) (k : String)
    (v : Room) (hm : ∀ p ∈ m, P p.2) (hv : P v) : ∀ p ∈ m ++ [(k, v)], P p.2 := by
  intro p hp
  rcases List.mem_append.mp hp with hmem | hone
  · exact hm p hmem
  · rw [List.mem_singleton.mp hone]; exact hv

theorem entries_mapDel (P : Room → Prop) (m : List (String × Room)) (k : String)
    (hm : ∀ p ∈ m, P p.2) : ∀ p ∈ mapDel m k, P p.2 :=
  fun p hp => hm p (mem_mapDel.mp hp).1

theorem roomInv_fresh (name : String) (opts : RoomOptions) :
    roomInv ⟨name, [], [], [], [], opts, none, []⟩ := by
  constructor
  · intro p hp; cases hp
  · intro o ho; cases ho

theorem roomInv_producers (r : Room) (ps : List (String × ProducerInfo))
    (h : roomInv r) : roomInv ⟨r.name, r.members, r.memberRoles, ps,
      r.observers, r.options, r.ownerId, r.moderators⟩ := h

theorem handleCloseProducer_rooms (w : World) (cid : String) (msg : CloseProducerMsg) :
    (handleCloseProducer w cid msg).1.sig.rooms = w.sig.rooms := by
  unfold handleCloseProducer
  dsimp only
  repeat' split
  all_goals rfl

theorem handleCreateTransport_rooms (w : World) (cid : String)
    (msg : CreateTransportMsg) (engine : Except Unit String) :
    (handleCreateTransport true w cid msg engine).1.sig.rooms = w.sig.rooms := by
  unfold handleCreateTransport
  dsimp only
  repeat' split
  all_goals rfl

theorem handleConsume_rooms (w : World) (cid : String)
    (msg : ConsumeMsg) (engine : Except Unit String) :
    (handleConsume true w cid msg engine).1.sig.rooms = w.sig.rooms := by
  unfold handleConsume
  dsimp only
  repeat' split
  all_goals rfl

theorem evtTransportClosed_rooms (st : SigState) (cid tid : String) :
    (evtTransportClosed st cid tid).rooms = st.rooms := by
  unfold evtTransportClosed
  cases mapGet st.clients cid <;> rfl

theorem evtConsumerClosed_rooms (st : SigState) (cid xid : String) :
    (evtConsumerClosed st cid xid).rooms = st.rooms := by
  unfold evtConsumerClosed
  cases mapGet st.clients cid <;> rfl

theorem entries_delete_after_set (P : Room → Prop) (stX : SigState) (k : String)
    (v : Room) (m : List (String × Room)) (hrooms : stX.rooms = mapSet m k v)
    (hm : ∀ p ∈ m, P p.2) (hv : P v) :
    ∀ p ∈ (deleteRoomIfEmpty stX k).rooms, P p.2 := by
  have hget : mapGet stX.rooms k = some v := by
    rw [hrooms]; exact mapGet_set_self _ _ _
  rw [deleteRoomIfEmpty_rooms stX k v hget, hrooms]
  intro p hp
  split at hp
  · exact entries_mapDel P _ _ (entries_mapSet P m k v hm hv) p hp
  · exact entries_mapSet P m k v hm hv p hp

theorem roomInvAll_purge (st : SigState) (k cid : String) (f : String → Bool)
    (h : ∀ p ∈ st.rooms, roomInv p.2) :
    ∀ p ∈ (deleteRoomIfEmpty (removeMemberFromRoom
        (closeClientProducers st k cid f) k cid) k).rooms, roomInv p.2 := by
  cases hr : mapGet st.rooms k with
  | none =>
    rw [closeClientProducers_none st k cid f hr,
      removeMemberFromRoom_none st k cid hr,
      deleteRoomIfEmpty_none st k hr]
    exact h
  | some room =>
    have hroom : roomInv room := h _ (mapGet_mem hr)
    have h1 := closeClientProducers_rooms_eq st k cid f room hr
    have h2 : mapGet (closeClientProducers st k cid f).rooms k = some
        { room with producers :=
            room.producers.filter (fun q => !(q.2.clientId = cid)) } := by
      rw [h1]; exact mapGet_set_self _ _ _
    have h3 := removeMemberFromRoom_rooms_eq
      (closeClientProducers st k cid f) k cid _ h2
    refine entries_delete_after_set roomInv _ k
      (removeMemberRoom
        { room with producers :=
            room.producers.filter (fun q => !(q.2.clientId = cid)) } cid)
      st.rooms ?_ h ?_
    · rw [h3, h1, mapSet_mapSet_same]
    · exact roomInv_removeMemberRoom _ cid hroom

theorem roomInvAll_disconnectRoomStep (cid : String) (f : String → Bool)
    (acc : SigState × List Event) (k : String)
    (h : ∀ p ∈ acc.1.rooms, roomInv p.2) :
    ∀ p ∈ (disconnectRoomStep cid f acc k).1.rooms, roomInv p.2 := by
  unfold disconnectRoomStep
  dsimp only
  exact roomInvAll_purge acc.1 k cid f h

theorem roomInvAll_foldl (cid : String) (f : String → Bool)
    (names : List String) (acc : SigState × List Event)
    (h : ∀ p ∈ acc.1.rooms, roomInv p.2) :
    ∀ p ∈ (names.foldl (disconnectRoomStep cid f) acc).1.rooms, roomInv p.2 := by
  induction names generalizing acc with
  | nil => exact h
  | cons hd tl ih =>
    exact ih (disconnectRoomStep cid f acc hd)
      (roomInvAll_disconnectRoomStep cid f acc hd h)

theorem roomInvAll_disconnect (w : World) (cid : String) (f : String → Bool)
    (h : ∀ p ∈ w.sig.rooms, roomInv p.2) :
    ∀ p ∈ (handleDisconnect w cid f).1.sig.rooms, roomInv p.2 := by
  unfold handleDisconnect
  have hrm : ∀ p ∈ (removeClientFromAllRooms w.sig cid f).1.rooms, roomInv p.2 := by
    unfold removeClientFromAllRooms
    have hf := roomInvAll_foldl cid f
      ((w.sig.rooms.filter (fun p => cid ∈ p.2.members)).map (fun p => p.1)) (w.sig, []) h
    cases hcl : mapGet (((w.sig.rooms.filter (fun p => cid ∈ p.2.members)).map
        (fun p => p.1)).foldl (disconnectRoomStep cid f) (w.sig, [])).1.clients cid <;>
      simp only [hcl] <;> exact hf
  unfold closeClientResources
  cases hcl : mapGet (removeClientFromAllRooms w.sig cid f).1.clients cid <;>
    simp only [hcl] <;> exact hrm

theorem roomInvAll_leaveRoom (w : World) (cid : String) (msg : LeaveRoomMsg)
    (f : String → Bool) (h : ∀ p ∈ w.sig.rooms, roomInv p.2) :
    ∀ p ∈ (handleLeaveRoom w cid msg f).1.sig.rooms, roomInv p.2 := by
  unfold handleLeaveRoom
  split
  · exact h
  cases hr : mapGet w.sig.rooms (msg.room.getD "") with
  | none => simp only [hr]; exact h
  | some room =>
    simp only [hr]
    have hroom : roomInv room := h _ (mapGet_mem hr)
    intro p hp
    refine entries_delete_after_set roomInv _ (msg.room.getD "")
      (removeMemberRoom
        { room with producers :=
            room.producers.filter (fun q => !(q.2.clientId = cid)) } cid)
      w.sig.rooms ?_ h (roomInv_removeMemberRoom _ cid hroom) p hp
    have h1 := closeClientProducers_rooms_eq w.sig (msg.room.getD "") cid f room hr
    have h2 : mapGet (closeClientProducers w.sig (msg.room.getD "") cid f).rooms
        (msg.room.getD "") = some
          { room with producers :=
              room.producers.filter (fun q => !(q.2.clientId = cid)) } := by
      rw [h1]; exact mapGet_set_self _ _ _
    have h3 := removeMemberFromRoom_rooms_eq
      (closeClientProducers w.sig (msg.room.getD "") cid f) (msg.room.getD "") cid _ h2
    cases hcl : mapGet (removeMemberFromRoom
        (closeClientProducers w.sig (msg.room.getD "") cid f)
        (msg.room.getD "") cid).clients cid <;>
      simp only [hcl] <;> rw [h3, h1, mapSet_mapSet_same]

theorem roomInv_joinUpdate (r0 : Room) (cid : String) (role : Role)
    (obs : List String) (own : Option String) (mods : List String)
    (hinv : roomInv r0) (hown : own = some cid ∨ own = r0.ownerId) :
    roomInv ⟨r0.name, setAdd r0.members cid, mapSet r0.memberRoles cid role,
      r0.producers, obs, r0.options, own, mods⟩ := by
  constructor
  · intro p hp
    rcases mapSet_mem p hp with he | hmem
    · rw [he]; exact self_mem_setAdd _ _
    · exact mem_setAdd_of_mem (hinv.1 p hmem)
  · intro o ho
    rcases hown with hcase | hcase
    · rw [hcase] at ho
      cases ho
      exact self_mem_setAdd _ _
    · rw [hcase] at ho
      exact mem_setAdd_of_mem (hinv.2 o ho)

theorem roomInvAll_join (w : World) (cid : String) (msg : JoinMsg)
    (h : ∀ p ∈ w.sig.rooms, roomInv p.2) :
    ∀ p ∈ (handleJoin w cid msg).1.sig.rooms, roomInv p.2 := by
  intro p hp
  unfold handleJoin at hp
  by_cases hroom : jsTruthy msg.room = true
  case neg =>
    simp [hroom] at hp
    exact h p hp
  case pos =>
  cases hc : mapGet w.sig.clients cid with
  | none =>
    simp [hroom, hc] at hp
    exact h p hp
  | some client =>
  unfold ensureRoom at hp
  cases hr : mapGet w.sig.rooms (msg.room.getD "") with
  | some r0 =>
    have hr0 : roomInv r0 := h _ (mapGet_mem hr)
    by_cases ho : msg.role = some "observer"
    · by_cases hallow : r0.options.allowObservers = true
      · by_cases hlim : 0 < r0.options.maxObservers ∧
            r0.options.maxObservers ≤ r0.observers.length
        · simp [hroom, hc, hr, ho, hallow, hlim] at hp
          exact h p hp
        · simp only [hroom, hc, hr, ho, hallow] at hp
          simp [hlim] at hp
          refine entries_mapSet roomInv _ _ _ h ?_ p hp
          exact roomInv_joinUpdate { r0 with observers := setAdd r0.observers cid }
            cid .observer _ _ _ hr0 (Or.inr rfl)
      · simp [hroom, hc, hr, ho, hallow] at hp
        exact h p hp
    · by_cases hm : msg.role = some "moderator"
      · by_cases hadm : isAdminUser client = true
        · by_cases hown : r0.ownerId = none
          · simp only [hroom, hc, hr, ho, hm] at hp
            simp [hadm, hown] at hp
            refine entries_mapSet roomInv _ _ _ h ?_ p hp
            exact roomInv_joinUpdate r0 cid .moderator _ _ _ hr0 (Or.inl rfl)
          · simp only [hroom, hc, hr, ho, hm] at hp
            simp [hadm, hown] at hp
            refine entries_mapSet roomInv _ _ _ h ?_ p hp
            exact roomInv_joinUpdate r0 cid .moderator _ _ _ hr0 (Or.inr rfl)
        · simp [hroom, hc, hr, ho, hm, hadm] at hp
          exact h p hp
      · by_cases hown : r0.ownerId = none
        · simp only [hroom, hc, hr, ho, hm] at hp
          simp [hown] at hp
          refine entries_mapSet roomInv _ _ _ h ?_ p hp
          exact roomInv_joinUpdate r0 cid .publisher _ _ _ hr0 (Or.inl rfl)
        · simp only [hroom, hc, hr, ho, hm] at hp
          simp [hown] at hp
          refine entries_mapSet roomInv _ _ _ h ?_ p hp
          exact roomInv_joinUpdate r0 cid .publisher _ _ _ hr0 (Or.inr rfl)
  | none =>
    by_cases ho : msg.role = some "observer"
    · by_cases hallow : w.sig.defaults.allowObservers = true
      · have hlim : ¬(0 < w.sig.defaults.maxObservers ∧
            w.sig.defaults.maxObservers = 0) := by omega
        simp only [hroom, hc, hr, ho, hallow] at hp
        simp [hlim] at hp
        rw [mapSet_append_fresh _ _ _ _ hr] at hp
        refine entries_append_one roomInv _ _ _ h ?_ p hp
        exact roomInv_joinUpdate
          ⟨msg.room.getD "", [], [], [], setAdd [] cid, w.sig.defaults, none, []⟩
          cid .observer _ _ _ (roomInv_fresh (msg.room.getD "") w.sig.defaults) (Or.inr rfl)
      · simp [hroom, hc, hr, ho, hallow] at hp
        rcases hp with hp | he
        · exact h p hp
        · rw [he]; exact roomInv_fresh (msg.room.getD "") w.sig.defaults
    · by_cases hm : msg.role = some "moderator"
      · by_cases hadm : isAdminUser client = true
        · simp only [hroom, hc, hr, ho, hm] at hp
          simp [hadm] at hp
          rw [mapSet_append_fresh _ _ _ _ hr] at hp
          refine entries_append_one roomInv _ _ _ h ?_ p hp
          exact roomInv_joinUpdate
            ⟨msg.room.getD "", [], [], [], [], w.sig.defaults, none, []⟩
            cid .moderator _ _ _ (roomInv_fresh (msg.room.getD "") w.sig.defaults) (Or.inl rfl)
        · simp [hroom, hc, hr, ho, hm, hadm] at hp
          exact h p hp
      · simp only [hroom, hc, hr, ho, hm] at hp
        simp at hp
        rw [mapSet_append_fresh _ _ _ _ hr] at hp
        refine entries_append_one roomInv _ _ _ h ?_ p hp
        exact roomInv_joinUpdate
          ⟨msg.room.getD "", [], [], [], [], w.sig.defaults, none, []⟩
          cid .publisher _ _ _ (roomInv_fresh (msg.room.getD "") w.sig.defaults) (Or.inl rfl)

theorem roomInvAll_produce (w : World) (cid : String) (msg : ProduceMsg)
    (engine : Except Unit String) (now : Nat)
    (h : ∀ p ∈ w.sig.rooms, roomInv p.2) :
    ∀ p ∈ (handleProduce true w cid msg engine now).1.sig.rooms, roomInv p.2 := by
  intro p hp
  unfold handleProduce at hp
  by_cases h1 : (jsTruthy msg.transportId && jsTruthy msg.kind &&
      msg.hasRtpParameters) = true
  case neg =>
    simp [h1] at hp
    exact h p hp
  case pos =>
  by_cases h2 : jsTruthy msg.room = true
  case neg =>
    simp [h1, h2] at hp
    exact h p hp
  case pos =>
  cases hc : mapGet w.sig.clients cid with
  | none =>
    simp [h1, h2, hc] at hp
    exact h p hp
  | some client =>
  by_cases hobs : client.role = Role.observer
  case pos =>
    simp [h1, h2, hc, hobs] at hp
    exact h p hp
  case neg =>
  by_cases ht : msg.transportId.getD "" ∈ client.transports
  case neg =>
    simp [h1, h2, hc, hobs, ht] at hp
    exact h p hp
  case pos =>
  unfold ensureRoom at hp
  cases hr : mapGet w.sig.rooms (msg.room.getD "") with
  | some r0 =>
    have hr0 : roomInv r0 := h _ (mapGet_mem hr)
    simp only [h1, h2, hc, hr] at hp
    simp [hobs, ht] at hp
    split at hp
    · exact h p hp
    cases engine with
    | error e =>
      simp at hp
      exact h p hp
    | ok pid =>
      simp at hp
      refine entries_mapSet roomInv _ _ _ h ?_ p hp
      exact roomInv_producers r0 _ hr0
  | none =>
    simp only [h1, h2, hc, hr] at hp
    simp [hobs, ht] at hp
    split at hp
    · rcases List.mem_append.mp hp with hp2 | hone
      · exact h p hp2
      · rw [List.mem_singleton.mp hone]
        exact roomInv_fresh (msg.room.getD "") w.sig.defaults
    cases engine with
    | error e =>
      rcases List.mem_append.mp hp with hp2 | hone
      · exact h p hp2
      · rw [List.mem_singleton.mp hone]
        exact roomInv_fresh (msg.room.getD "") w.sig.defaults
    | ok pid =>
      rw [show (∀ x, x ∈ mapSet (w.sig.rooms ++
          [(msg.room.getD "", (⟨msg.room.getD "", [], [], [], [],
            w.sig.defaults, none, []⟩ : Room))]) (msg.room.getD "")
          (⟨msg.room.getD "", [], [],
            mapSet ([] : List (String × ProducerInfo)) pid
              ⟨cid, msg.kind.getD "", now⟩, [],
            w.sig.defaults, none, []⟩ : Room) ↔ x ∈ w.sig.rooms ++
          [(msg.room.getD "", (⟨msg.room.getD "", [], [],
            mapSet ([] : List (String × ProducerInfo)) pid
              ⟨cid, msg.kind.getD "", now⟩, [],
            w.sig.defaults, none, []⟩ : Room))]) from fun x => by
        rw [mapSet_append_fresh _ _ _ _ hr]] at hp
      refine entries_append_one roomInv _ _ _ h ?_ p hp
      exact roomInv_producers
        ⟨msg.room.getD "", [], [], [], [], w.sig.defaults, none, []⟩ _
        (roomInv_fresh (msg.room.getD "") w.sig.defaults)

theorem roomInvAll_producerClosedEvt (st : SigState) (pid roomName cid : String)
    (h : ∀ p ∈ st.rooms, roomInv p.2) :
    ∀ p ∈ (evtProducerClosed st pid roomName cid).1.rooms, roomInv p.2 := by
  intro p hp
  unfold evtProducerClosed at hp
  cases hr : mapGet st.rooms roomName with
  | none =>
    simp only [hr] at hp
    cases hcl : mapGet st.clients cid <;> (try simp only [hcl] at hp) <;>
      exact h p hp
  | some room =>
    have hroom : roomInv room := h _ (mapGet_mem hr)
    simp only [hr] at hp
    by_cases hhas : (mapGet room.producers pid).isSome = true
    · simp only [hhas, if_true] at hp
      cases hcl : mapGet st.clients cid with
      | none =>
        simp only [hcl] at hp
        refine entries_mapSet roomInv _ _ _ h ?_ p hp
        exact roomInv_producers room _ hroom
      | some c =>
        simp only [hcl] at hp
        refine entries_mapSet roomInv _ _ _ h ?_ p hp
        exact roomInv_producers room _ hroom
    · simp only [hhas, Bool.false_eq_true, if_false] at hp
      cases hcl : mapGet st.clients cid <;> (try simp only [hcl] at hp) <;>
        exact h p hp

theorem stepW_roomInvAll (w : World) (op : Op)
    (h : ∀ p ∈ w.sig.rooms, roomInv p.2) :
    ∀ p ∈ (stepW w op).sig.rooms, roomInv p.2 := by
  cases op with
  | connect cid wsOpen user => exact h
  | join cid msg => exact roomInvAll_join w cid msg h
  | leaveRoom cid msg f => exact roomInvAll_leaveRoom w cid msg f h
  | produce cid msg engine now => exact roomInvAll_produce w cid msg engine now h
  | closeProducer cid msg =>
    intro p hp
    rw [show (stepW w (.closeProducer cid msg)).sig.rooms = w.sig.rooms from
      handleCloseProducer_rooms w cid msg] at hp
    exact h p hp
  | createTransport cid msg engine =>
    intro p hp
    rw [show (stepW w (.createTransport cid msg engine)).sig.rooms = w.sig.rooms from
      handleCreateTransport_rooms w cid msg engine] at hp
    exact h p hp
  | consume cid msg engine =>
    intro p hp
    rw [show (stepW w (.consume cid msg engine)).sig.rooms = w.sig.rooms from
      handleConsume_rooms w cid msg engine] at hp
    exact h p hp
  | disconnect cid f => exact roomInvAll_disconnect w cid f h
  | transportClosedEvt cid tid =>
    intro p hp
    rw [show (stepW w (.transportClosedEvt cid tid)).sig.rooms = w.sig.rooms from
      evtTransportClosed_rooms w.sig cid tid] at hp
    exact h p hp
  | producerClosedEvt pid roomName cid =>
    exact roomInvAll_producerClosedEvt w.sig pid roomName cid h
  | consumerClosedEvt cid xid =>
    intro p hp
    rw [show (stepW w (.consumerClosedEvt cid xid)).sig.rooms = w.sig.rooms from
      evtConsumerClosed_rooms w.sig cid xid] at hp
    exact h p hp

theorem reachable_roomInvAll (defaults : RoomOptions) (w : World)
    (h : Reachable defaults w) : ∀ p ∈ w.sig.rooms, roomInv p.2 := by
  induction h with
  | init => intro p hp; cases hp
  | step op hR ih => exact stepW_roomInvAll _ op ih

theorem find?_first {α : Type} (p : α → Bool) (l : List α) (b : α)
    (h : l.find? p = some b) :
    p b = true ∧ ∃ pre suf, l = pre ++ b :: suf ∧ ∀ a ∈ pre, p a = false := by
  induction l with
  | nil => simp [List.find?] at h
  | cons hd tl ih =>
    by_cases hph : p hd = true
    · rw [List.find?_cons_of_pos _ hph] at h
      injection h with h
      subst h
      exact ⟨hph, [], tl, rfl, by simp⟩
    · rw [List.find?_cons_of_neg _ (by simpa using hph)] at h
      obtain ⟨hb, pre, suf, hl, hpre⟩ := ih h
      refine ⟨hb, hd :: pre, suf, by rw [hl]; rfl, ?_⟩
      intro a ha
      rcases List.mem_cons.mp ha with h' | h'
      · subst h'; simpa using hph
      · exact hpre a h'

theorem handleJoin_owner_rule (w : World) (cid : String) (msg : JoinMsg)
    (roomName : String) (r r' : Room)
    (hroom : msg.room = some roomName)
    (hr : mapGet w.sig.rooms roomName = some r)
    (hr' : mapGet (handleJoin w cid msg).1.sig.rooms roomName = some r') :
    r'.ownerId = r.ownerId ∨
      (r.ownerId = none ∧ r'.ownerId = some cid ∧ ¬(msg.role = some "observer")) := by
  unfold handleJoin at hr'
  unfold ensureRoom at hr'
  simp only [hroom, Option.getD_some] at hr'
  by_cases ht : jsTruthy (some roomName) = true
  case neg =>
    simp [ht] at hr'
    rw [hr] at hr'
    exact Or.inl (by rw [← Option.some.inj hr'])
  case pos =>
  cases hc : mapGet w.sig.clients cid with
  | none =>
    simp [ht, hc] at hr'
    rw [hr] at hr'
    exact Or.inl (by rw [← Option.some.inj hr'])
  | some client =>
  by_cases ho : msg.role = some "observer"
  · by_cases hallow : r.options.allowObservers = true
    · by_cases hlim : 0 < r.options.maxObservers ∧
          r.options.maxObservers ≤ r.observers.length
      · simp [ht, hc, hr, ho, hallow, hlim] at hr'
        exact Or.inl (by rw [← hr'])
      · simp only [ht, hc] at hr'
        simp [hr, ho, hallow, hlim, mapGet_set_self] at hr'
        exact Or.inl (by rw [← hr'])
    · simp [ht, hc, hr, ho, hallow] at hr'
      exact Or.inl (by rw [← hr'])
  · by_cases hm : msg.role = some "moderator"
    · by_cases hadm : isAdminUser client = true
      · by_cases hown : r.ownerId = none
        · simp only [ht, hc] at hr'
          simp [hr, ho, hm, hadm, hown, mapGet_set_self] at hr'
          exact Or.inr ⟨hown, by rw [← hr'], ho⟩
        · simp only [ht, hc] at hr'
          simp [hr, ho, hm, hadm, hown, mapGet_set_self] at hr'
          exact Or.inl (by rw [← hr'])
      · simp [ht, hc, hr, ho, hm, hadm] at hr'
        exact Or.inl (by rw [← hr'])
    · by_cases hown : r.ownerId = none
      · simp only [ht, hc] at hr'
        simp [hr, ho, hm, hown, mapGet_set_self] at hr'
        exact Or.inr ⟨hown, by rw [← hr'], ho⟩
      · simp only [ht, hc] at hr'
        simp [hr, ho, hm, hown, mapGet_set_self] at hr'
        exact Or.inl (by rw [← hr'])

theorem roleBeq_iff (a b : Role) : (a == b) = true ↔ a = b := by
  cases a <;> cases b <;> decide

theorem roleBeq_false_iff (a b : Role) : (a == b) = false ↔ ¬a = b := by
  cases a <;> cases b <;> decide

theorem removeMemberRoom_owner_rule (room : Room) (cid : String) :
    (room.ownerId ≠ some cid →
      (removeMemberRoom room cid).ownerId = room.ownerId) ∧
    (room.ownerId = some cid →
      ((removeMemberRoom room cid).ownerId = none ∧
        ∀ q ∈ mapDel room.memberRoles cid,
          ¬(q.2 = Role.publisher ∨ q.2 = Role.moderator)) ∨
      (∃ k role pre suf,
        (removeMemberRoom room cid).ownerId = some k ∧
        mapDel room.memberRoles cid = pre ++ (k, role) :: suf ∧
        (role = Role.publisher ∨ role = Role.moderator) ∧
        ∀ q ∈ pre, ¬(q.2 = Role.publisher ∨ q.2 = Role.moderator))) := by
  constructor
  · intro hne
    simp [removeMemberRoom, hne]
  · intro hown
    cases hf : (mapDel room.memberRoles cid).find?
        (fun p => p.2 == Role.publisher || p.2 == Role.moderator) with
    | none =>
      left
      constructor
      · simp [removeMemberRoom, hown, hf]
      · intro q hq
        have := List.find?_eq_none.mp hf q hq
        simpa [roleBeq_iff] using this
    | some b =>
      right
      obtain ⟨hb, pre, suf, hl, hpre⟩ := find?_first _ _ _ hf
      refine ⟨b.1, b.2, pre, suf, ?_, ?_, ?_, ?_⟩
      · simp [removeMemberRoom, hown, hf]
      · rw [hl]
      · simpa [roleBeq_iff] using hb
      · intro q hq
        have := hpre q hq
        simpa [roleBeq_false_iff] using this

/-- C5 (amended).  The owner invariant that actually holds: (1) in every
reachable world, each registered room's `ownerId` is null or a current
member (the role clause of the claim fails — see the counterexample — because
a rejoin can demote the owner to observer while `handleJoin` leaves
`ownerId` untouched); (2) `handleJoin` changes an existing room's owner only
by setting it to the joiner when it was null and the joining role is not
observer; (3) `removeMemberRoom` keeps `ownerId` when the removed client is
not the owner, and otherwise reassigns it to the first remaining
publisher/moderator of `memberRoles` in insertion order, or null if none. -/
theorem C5_amended_owner_invariant :
    (∀ (defaults : RoomOptions) (w : World), Reachable defaults w →
        ∀ p ∈ w.sig.rooms, ownerIsMember p.2) ∧
    (∀ (w : World) (cid : String) (msg : JoinMsg) (roomName : String) (r r' : Room),
        msg.room = some roomName →
        mapGet w.sig.rooms roomName = some r →
        mapGet (handleJoin w cid msg).1.sig.rooms roomName = some r' →
        r'.ownerId = r.ownerId ∨
          (r.ownerId = none ∧ r'.ownerId = some cid ∧ ¬(msg.role = some "observer"))) ∧
    (∀ (room : Room) (cid : String),
        (room.ownerId ≠ some cid →
          (removeMemberRoom room cid).ownerId = room.ownerId) ∧
        (room.ownerId = some cid →
          ((removeMemberRoom room cid).ownerId = none ∧
            ∀ q ∈ mapDel room.memberRoles cid,
              ¬(q.2 = Role.publisher ∨ q.2 = Role.moderator)) ∨
          (∃ k role pre suf,
            (removeMemberRoom room cid).ownerId = some k ∧
            mapDel room.memberRoles cid = pre ++ (k, role) :: suf ∧
            (role = Role.publisher ∨ role = Role.moderator) ∧
            ∀ q ∈ pre, ¬(q.2 = Role.publisher ∨ q.2 = Role.moderator)))) := by
  refine ⟨?_, ?_, ?_⟩
  · intro defaults w hw p hp
    exact (reachable_roomInvAll defaults w hw p hp).2
  · exact handleJoin_owner_rule
  · exact removeMemberRoom_owner_rule

theorem C5_witness :
    ownerIsMember ⟨"R", ["A"], [("A", .publisher)], [], [], openDefaults, some "A", []⟩ ∧
    ((⟨"R", ["A"], [("A", .observer)], [], ["A"], openDefaults, some "A", []⟩ : Room).ownerId =
        (⟨"R", ["A"], [("A", .publisher)], [], [], openDefaults, some "A", []⟩ : Room).ownerId ∨
      ((⟨"R", ["A"], [("A", .publisher)], [], [], openDefaults, some "A", []⟩ : Room).ownerId = none ∧
        (⟨"R", ["A"], [("A", .observer)], [], ["A"], openDefaults, some "A", []⟩ : Room).ownerId = some "A" ∧
        ¬((some "observer" : Option String) = some "observer"))) ∧
    (removeMemberRoom
        ⟨"R", ["A"], [("A", .publisher)], [], [], openDefaults, some "A", []⟩ "B").ownerId =
      (⟨"R", ["A"], [("A", .publisher)], [], [], openDefaults, some "A", []⟩ : Room).ownerId := by
  have hreach : Reachable openDefaults rejoinW2 := by
    show Reachable openDefaults (stepW (stepW (initWorld openDefaults) _) _)
    exact Reachable.step _ (Reachable.step _ Reachable.init)
  refine ⟨?_, ?_, ?_⟩
  · exact C5_amended_owner_invariant.1 openDefaults rejoinW2 hreach
      ("R", ⟨"R", ["A"], [("A", .publisher)], [], [], openDefaults, some "A", []⟩)
      (by
        have hlist : rejoinW2.sig.rooms =
            [("R", ⟨"R", ["A"], [("A", .publisher)], [], [], openDefaults, some "A", []⟩)] := by
          decide
        rw [hlist]
        exact List.mem_singleton.mpr rfl)
  · exact C5_amended_owner_invariant.2.1 rejoinW2 "A" ⟨some "R", some "observer"⟩ "R"
      ⟨"R", ["A"], [("A", .publisher)], [], [], openDefaults, some "A", []⟩
      ⟨"R", ["A"], [("A", .observer)], [], ["A"], openDefaults, some "A", []⟩
      rfl (by decide) (by decide)
  · exact (C5_amended_owner_invariant.2.2
      ⟨"R", ["A"], [("A", .publisher)], [], [], openDefaults, some "A", []⟩ "B").1
      (by decide)
